import Mathlib

/-!
Verification of the `cloudspark` repository (an AWS S3 convenience library)
against its natural-language specification.

The development shallowly embeds the two Python modules
`cloudspark/s3_connect.py` and `app/s3_connect.py` (together with the session
logic of `app/aws_connect.py`).  Pure helpers (`json.dumps`, `json.loads`,
`base64.b64encode/b64decode` restricted to the value universe the library
manipulates) are modelled as executable Lean functions; the stateful facade is
modelled as explicit state passing over a `FacadeState` record, with upstream
network traffic and console logging recorded in an event trace.  External
services (S3, STS, IAM) are collaborators: their responses enter the model as
explicit parameters or as a small `World` record, and the boto3 calls that are
pure local computation (`generate_presigned_post`, `generate_presigned_url`)
are modelled from the spec, as noted on their definitions.
-/

namespace Cloudspark

/-! ## JSON values

Model of the Python value universe the library passes through `json.dumps`,
`json.loads` and `base64`: `None`, booleans, integers, strings, lists and
string-keyed dictionaries.  Strings are lists of characters; dictionaries are
ordered association lists, mirroring Python's insertion-ordered `dict`.
(Floats are not used by any code path under verification and are omitted.)
-/

inductive JVal where
  | jnull : JVal
  | jbool : Bool → JVal
  | jint : Int → JVal
  | jstr : List Char → JVal
  | jarr : List JVal → JVal
  | jobj : List (List Char × JVal) → JVal
deriving Repr

/-- Decimal digit character, `chr(48 + n)` for `n < 10`. -/
def digitChar (n : Nat) : Char := Char.ofNat (48 + n)

/-- Fuel-indexed digit expansion (structural, so it evaluates by plain
reduction; any fuel above the number works). -/
def natToDigitsAux : Nat → Nat → List Char
  | 0, _ => []
  | fuel + 1, n =>
    if n < 10 then [digitChar n]
    else natToDigitsAux fuel (n / 10) ++ [digitChar (n % 10)]

/-- Decimal digits of a natural number, most significant first (model of
Python `str(n)` for `n ≥ 0`). -/
def natToDigits (n : Nat) : List Char := natToDigitsAux (n + 1) n

/-- Decimal rendering of an integer (model of Python `str(n)`). -/
def intToChars : Int → List Char
  | .ofNat n => natToDigits n
  | .negSucc m => '-' :: natToDigits (m + 1)

/-- JSON escaping of one character as performed by `json.dumps` on the
printable-ASCII universe: `"` and `\` are escaped, everything else is kept. -/
def escChar (c : Char) : List Char :=
  if c = '"' then ['\\', '"']
  else if c = '\\' then ['\\', '\\']
  else [c]

/-- JSON escaping of a string body. -/
def escStr : List Char → List Char
  | [] => []
  | c :: cs => escChar c ++ escStr cs

mutual

/-- Compact JSON serialization (model of the canonical `json.dumps` output
with no inter-token whitespace). -/
def sser : JVal → List Char
  | .jnull => ['n', 'u', 'l', 'l']
  | .jbool true => ['t', 'r', 'u', 'e']
  | .jbool false => ['f', 'a', 'l', 's', 'e']
  | .jint n => intToChars n
  | .jstr s => '"' :: (escStr s ++ ['"'])
  | .jarr [] => ['[', ']']
  | .jarr (x :: xs) => '[' :: (sser x ++ sserItems xs ++ [']'])
  | .jobj [] => ['\x7b', '\x7d']
  | .jobj (m :: ms) => '\x7b' :: (sserKV m ++ sserMembers ms ++ ['\x7d'])

/-- Remaining array items, each preceded by a comma. -/
def sserItems : List JVal → List Char
  | [] => []
  | x :: xs => ',' :: (sser x ++ sserItems xs)

/-- One object member, `"key":value`. -/
def sserKV : List Char × JVal → List Char
  | (k, v) => '"' :: (escStr k ++ ['"', ':'] ++ sser v)

/-- Remaining object members, each preceded by a comma. -/
def sserMembers : List (List Char × JVal) → List Char
  | [] => []
  | m :: ms => ',' :: (sserKV m ++ sserMembers ms)

end

/-- Indentation for one nesting level of `json.dumps(·, indent=4)`. -/
def ind (d : Nat) : List Char := List.replicate (4 * d) ' '

mutual

/-- Model of `json.dumps(·, indent=4)`: newline-and-indent item layout, key
separator `": "`, empty containers rendered inline. -/
def iser (d : Nat) : JVal → List Char
  | .jnull => ['n', 'u', 'l', 'l']
  | .jbool true => ['t', 'r', 'u', 'e']
  | .jbool false => ['f', 'a', 'l', 's', 'e']
  | .jint n => intToChars n
  | .jstr s => '"' :: (escStr s ++ ['"'])
  | .jarr [] => ['[', ']']
  | .jarr (x :: xs) =>
      '[' :: '\n' :: (ind (d + 1) ++ iser (d + 1) x ++ iserItems (d + 1) xs
        ++ '\n' :: (ind d ++ [']']))
  | .jobj [] => ['\x7b', '\x7d']
  | .jobj (m :: ms) =>
      '\x7b' :: '\n' :: (ind (d + 1) ++ iserKV (d + 1) m ++ iserMembers (d + 1) ms
        ++ '\n' :: (ind d ++ ['\x7d']))

/-- Remaining array items in indented layout. -/
def iserItems (d : Nat) : List JVal → List Char
  | [] => []
  | x :: xs => ',' :: '\n' :: (ind d ++ iser d x ++ iserItems d xs)

/-- One object member in indented layout, `"key": value`. -/
def iserKV (d : Nat) : List Char × JVal → List Char
  | (k, v) => '"' :: (escStr k ++ ['"', ':', ' '] ++ iser d v)

/-- Remaining object members in indented layout. -/
def iserMembers (d : Nat) : List (List Char × JVal) → List Char
  | [] => []
  | m :: ms => ',' :: '\n' :: (ind d ++ iserKV d m ++ iserMembers d ms)

end

/-! ## JSON parsing (model of `json.loads`) -/

/-- ASCII decimal digit test. -/
def isDigit (c : Char) : Bool := 48 ≤ c.toNat && c.toNat ≤ 57

/-- Value of a decimal digit character. -/
def digitVal (c : Char) : Nat := c.toNat - 48

/-- JSON insignificant whitespace. -/
def isWs (c : Char) : Bool := c = ' ' || c = '\n' || c = '\t' || c = '\r'

/-- Drop leading insignificant whitespace. -/
def skipWs : List Char → List Char
  | [] => []
  | c :: cs => if isWs c then skipWs cs else c :: cs

/-- Consume a run of decimal digits, accumulating their value. -/
def parseNatAux : List Char → Nat → Nat × List Char
  | [], acc => (acc, [])
  | c :: cs, acc => if isDigit c then parseNatAux cs (acc * 10 + digitVal c) else (acc, c :: cs)

/-- Unescape one backslash-escaped character (the JSON escapes the library's
value universe can produce; `\uXXXX` escapes are outside the modelled
universe). -/
def unescChar (c : Char) : Option Char :=
  if c = '"' then some '"'
  else if c = '\\' then some '\\'
  else if c = '/' then some '/'
  else if c = 'n' then some '\n'
  else if c = 't' then some '\t'
  else if c = 'r' then some '\r'
  else if c = 'b' then some (Char.ofNat 8)
  else if c = 'f' then some (Char.ofNat 12)
  else none

/-- Parse a string body up to and including the closing quote. -/
def parseStrBody : List Char → Option (List Char × List Char)
  | [] => none
  | c :: rest =>
      if c = '"' then some ([], rest)
      else if c = '\\' then
        match rest with
        | [] => none
        | e :: rest2 =>
          match unescChar e with
          | some u => (parseStrBody rest2).map (fun p => (u :: p.1, p.2))
          | none => none
      else (parseStrBody rest).map (fun p => (c :: p.1, p.2))

mutual

/-- Fuel-indexed JSON value parser. -/
def parseVal : Nat → List Char → Option (JVal × List Char)
  | 0, _ => none
  | fuel + 1, cs =>
    match skipWs cs with
    | [] => none
    | c :: rest =>
      if c = 'n' then
        match rest with
        | 'u' :: 'l' :: 'l' :: r => some (.jnull, r)
        | _ => none
      else if c = 't' then
        match rest with
        | 'r' :: 'u' :: 'e' :: r => some (.jbool true, r)
        | _ => none
      else if c = 'f' then
        match rest with
        | 'a' :: 'l' :: 's' :: 'e' :: r => some (.jbool false, r)
        | _ => none
      else if c = '"' then (parseStrBody rest).map (fun p => (JVal.jstr p.1, p.2))
      else if c = '-' then
        match rest with
        | d :: _ =>
            if isDigit d then
              let p := parseNatAux rest 0
              some (.jint (-(p.1 : Int)), p.2)
            else none
        | [] => none
      else if c = '[' then
        match skipWs rest with
        | ']' :: r2 => some (.jarr [], r2)
        | _ => (parseItems fuel rest).map (fun p => (JVal.jarr p.1, p.2))
      else if c = '\x7b' then
        match skipWs rest with
        | '\x7d' :: r2 => some (.jobj [], r2)
        | _ => (parseMembers fuel rest).map (fun p => (JVal.jobj p.1, p.2))
      else if isDigit c then
        let p := parseNatAux (c :: rest) 0
        some (.jint (p.1 : Int), p.2)
      else none

/-- Fuel-indexed parser for the items of a non-empty array, up to `]`. -/
def parseItems : Nat → List Char → Option (List JVal × List Char)
  | 0, _ => none
  | fuel + 1, cs =>
    match parseVal fuel cs with
    | none => none
    | some (v, rest) =>
      match skipWs rest with
      | [] => none
      | c :: r2 =>
        if c = ',' then (parseItems fuel r2).map (fun p => (v :: p.1, p.2))
        else if c = ']' then some ([v], r2)
        else none

/-- Fuel-indexed parser for the members of a non-empty object, up to the
closing brace. -/
def parseMembers : Nat → List Char → Option (List (List Char × JVal) × List Char)
  | 0, _ => none
  | fuel + 1, cs =>
    match skipWs cs with
    | [] => none
    | c0 :: rest =>
      if c0 = '"' then
        match parseStrBody rest with
        | none => none
        | some (k, r1) =>
          match skipWs r1 with
          | [] => none
          | c1 :: r2 =>
            if c1 = ':' then
              match parseVal fuel r2 with
              | none => none
              | some (v, r3) =>
                match skipWs r3 with
                | [] => none
                | c2 :: r4 =>
                  if c2 = ',' then (parseMembers fuel r4).map (fun p => ((k, v) :: p.1, p.2))
                  else if c2 = '\x7d' then some ([(k, v)], r4)
                  else none
            else none
      else none

end

/-- Model of `json.loads`: parse one JSON value and require that nothing but
whitespace follows. -/
def loads (cs : List Char) : Option JVal :=
  match parseVal (cs.length + 1) cs with
  | some (v, rest) => if skipWs rest = [] then some v else none
  | none => none

/-! ## Base64 (model of `base64.b64encode` / `base64.b64decode`) -/

/-- The standard base64 alphabet. -/
def b64chars : List Char :=
  ['A', 'B', 'C', 'D', 'E', 'F', 'G', 'H', 'I', 'J', 'K', 'L', 'M',
   'N', 'O', 'P', 'Q', 'R', 'S', 'T', 'U', 'V', 'W', 'X', 'Y', 'Z',
   'a', 'b', 'c', 'd', 'e', 'f', 'g', 'h', 'i', 'j', 'k', 'l', 'm',
   'n', 'o', 'p', 'q', 'r', 's', 't', 'u', 'v', 'w', 'x', 'y', 'z',
   '0', '1', '2', '3', '4', '5', '6', '7', '8', '9', '+', '/']

/-- Character for a sextet value. -/
def encSex (n : Nat) : Char := b64chars.getD n '?'

/-- Sextet value of an alphabet character, `none` for non-alphabet input. -/
def decSex (c : Char) : Option Nat :=
  let i := b64chars.indexOf c
  if i < 64 then some i else none

/-- Base64 encoding of a byte sequence (bytes as naturals below 256),
with `=` padding, as produced by `base64.b64encode`. -/
def b64encode : List Nat → List Char
  | a :: b :: c :: rest =>
      encSex (a / 4) :: encSex ((a % 4) * 16 + b / 16) :: encSex ((b % 16) * 4 + c / 64)
        :: encSex (c % 64) :: b64encode rest
  | [a, b] => [encSex (a / 4), encSex ((a % 4) * 16 + b / 16), encSex ((b % 16) * 4), '=']
  | [a] => [encSex (a / 4), encSex ((a % 4) * 16), '=', '=']
  | [] => []

/-- Base64 decoding on properly padded alphabet input (model of
`base64.b64decode`; `none` models the raised `binascii.Error`). -/
def b64decode : List Char → Option (List Nat)
  | [] => some []
  | c1 :: c2 :: c3 :: c4 :: rest =>
      match decSex c1, decSex c2 with
      | some s1, some s2 =>
        if c3 = '=' then
          if c4 = '=' then
            if rest = [] then some [s1 * 4 + s2 / 16] else none
          else none
        else
          match decSex c3 with
          | some s3 =>
            if c4 = '=' then
              if rest = [] then some [s1 * 4 + s2 / 16, (s2 % 16) * 16 + s3 / 4] else none
            else
              match decSex c4 with
              | some s4 =>
                  (b64decode rest).map (fun bs =>
                    (s1 * 4 + s2 / 16) :: ((s2 % 16) * 16 + s3 / 4) :: ((s3 % 4) * 64 + s4) :: bs)
              | none => none
          | none => none
      | _, _ => none
  | _ => none

/-- Encode a printable-ASCII string as bytes (model of `str.encode()` on the
ASCII fragment the library produces). -/
def strBytes (cs : List Char) : List Nat := cs.map Char.toNat

/-- Decode bytes as an ASCII string (model of `bytes.decode()` on ASCII
input; `none` models the raised `UnicodeDecodeError`). -/
def asciiDecode (bs : List Nat) : Option (List Char) :=
  if bs.all (fun b => b < 128) then some (bs.map Char.ofNat) else none

/-! ## Whitespace stripping

`stripWs` removes formatting whitespace — whitespace outside string
literals — used to state the `policy_decode` round-trip claim. -/

/-- Strip whitespace outside string literals; the `Bool` state tracks whether
the scan is inside a string literal. -/
def stripWsGo : Bool → List Char → List Char
  | _, [] => []
  | false, c :: cs =>
      if isWs c then stripWsGo false cs
      else if c = '"' then c :: stripWsGo true cs
      else c :: stripWsGo false cs
  | true, c :: cs =>
      if c = '\\' then
        match cs with
        | [] => [c]
        | e :: cs2 => c :: e :: stripWsGo true cs2
      else if c = '"' then c :: stripWsGo false cs
      else c :: stripWsGo true cs

/-- Remove all formatting whitespace (whitespace outside string literals). -/
def stripWs (cs : List Char) : List Char := stripWsGo false cs

/-! ## `policy_decode` (cloudspark/s3_connect.py, lines 393-408)

`policy_decode` base64-decodes its input, UTF-8-decodes the bytes, parses the
JSON text, and returns `json.dumps(policy_json, indent=4)`.  Any exception is
re-raised (`Except.error`). -/

/-- Core of `S3Connection.policy_decode`: decode a base64 policy string and
return the parsed policy re-serialized with `indent=4`. -/
def policy_decode_core (policy_encoded : List Char) : Except String (List Char) :=
  match b64decode policy_encoded with
  | none => .error "binascii.Error"
  | some bytes =>
    match asciiDecode bytes with
    | none => .error "UnicodeDecodeError"
    | some text =>
      match loads text with
      | none => .error "json.JSONDecodeError"
      | some j => .ok (iser 0 j)

/-! ## Round-trip lemmas for the JSON model -/

/-- `true` when the list does not start with a decimal digit (so a digit run
ending right before it is maximal). -/
def noLeadDigit : List Char → Bool
  | [] => true
  | c :: _ => !isDigit c

theorem noLeadDigit_cons {c : Char} (cs : List Char) (h : isDigit c = false) :
    noLeadDigit (c :: cs) = true := by
  simp [noLeadDigit, h]

theorem isDigit_digitChar {m : Nat} (h : m < 10) : isDigit (digitChar m) = true := by
  revert h; revert m; decide

theorem digitVal_digitChar {m : Nat} (h : m < 10) : digitVal (digitChar m) = m := by
  revert h; revert m; decide

theorem natToDigitsAux_congr (n : Nat) :
    ∀ fuel1 fuel2 : Nat, n < fuel1 → n < fuel2 →
      natToDigitsAux fuel1 n = natToDigitsAux fuel2 n := by
  induction n using Nat.strong_induction_on with
  | _ n ih =>
    intro fuel1 fuel2 h1 h2
    cases fuel1 with
    | zero => omega
    | succ f1 =>
      cases fuel2 with
      | zero => omega
      | succ f2 =>
        rw [natToDigitsAux, natToDigitsAux]
        split
        · rfl
        · next h10 =>
          rw [ih (n / 10) (Nat.div_lt_self (by omega) (by omega)) f1 f2
            (by omega) (by omega)]

/-- The recursive characterization of `natToDigits`. -/
theorem natToDigits_eq (n : Nat) :
    natToDigits n = if n < 10 then [digitChar n]
      else natToDigits (n / 10) ++ [digitChar (n % 10)] := by
  unfold natToDigits
  rw [natToDigitsAux]
  split
  · rfl
  · next h =>
    rw [natToDigitsAux_congr (n / 10) n (n / 10 + 1) (by omega) (by omega)]

theorem natToDigits_ne_nil (n : Nat) : natToDigits n ≠ [] := by
  rw [natToDigits_eq]
  split
  · simp
  · simp

theorem natToDigits_all_digit (n : Nat) : ∀ c ∈ natToDigits n, isDigit c = true := by
  induction n using Nat.strong_induction_on with
  | _ n ih =>
    rw [natToDigits_eq]
    split
    · intro c hc
      simp only [List.mem_singleton] at hc
      subst hc
      exact isDigit_digitChar (by omega)
    · intro c hc
      rcases List.mem_append.mp hc with h | h
      · exact ih (n / 10) (Nat.div_lt_self (by omega) (by omega)) c h
      · simp only [List.mem_singleton] at h
        subst h
        exact isDigit_digitChar (Nat.mod_lt _ (by omega))

theorem parseNatAux_stop (cs : List Char) (acc : Nat) (h : noLeadDigit cs = true) :
    parseNatAux cs acc = (acc, cs) := by
  cases cs with
  | nil => rfl
  | cons c cs =>
    simp only [noLeadDigit, Bool.not_eq_true'] at h
    simp [parseNatAux, h]

theorem parseNatAux_digits (ds : List Char) (rest : List Char) (acc : Nat)
    (hd : ∀ c ∈ ds, isDigit c = true) (hr : noLeadDigit rest = true) :
    parseNatAux (ds ++ rest) acc
      = (ds.foldl (fun x c => x * 10 + digitVal c) acc, rest) := by
  induction ds generalizing acc with
  | nil => simpa using parseNatAux_stop rest acc hr
  | cons d ds ih =>
    have hdd : isDigit d = true := hd d (by simp)
    rw [List.cons_append, parseNatAux]
    simp only [hdd, if_pos, List.append_eq]
    rw [ih _ (fun c hc => hd c (by simp [hc]))]
    simp

theorem foldl_natToDigits (n : Nat) (acc : Nat) :
    (natToDigits n).foldl (fun x c => x * 10 + digitVal c) acc
      = acc * 10 ^ (natToDigits n).length + n := by
  induction n using Nat.strong_induction_on generalizing acc with
  | _ n ih =>
    rw [natToDigits_eq]
    split
    · next h =>
      simp [List.foldl, digitVal_digitChar h]
    · next h =>
      rw [List.foldl_append, ih (n / 10) (Nat.div_lt_self (by omega) (by omega))]
      simp only [List.foldl, List.length_append, List.length_singleton]
      rw [digitVal_digitChar (Nat.mod_lt _ (by omega))]
      rw [pow_succ]
      have := Nat.div_add_mod n 10
      ring_nf
      omega

theorem parseNatAux_natToDigits (n : Nat) (rest : List Char)
    (hr : noLeadDigit rest = true) :
    parseNatAux (natToDigits n ++ rest) 0 = (n, rest) := by
  rw [parseNatAux_digits _ _ _ (natToDigits_all_digit n) hr, foldl_natToDigits]
  simp

theorem parseStrBody_escStr (s : List Char) (rest : List Char) :
    parseStrBody (escStr s ++ '"' :: rest) = some (s, rest) := by
  induction s with
  | nil =>
    simp only [escStr, List.nil_append]
    rw [parseStrBody.eq_def]
    simp
  | cons c cs ih =>
    by_cases h1 : c = '"'
    · subst h1
      simp only [escStr, escChar, if_pos, List.cons_append, List.append_assoc]
      rw [parseStrBody.eq_def]
      simp [unescChar, ih]
    · by_cases h2 : c = '\\'
      · subst h2
        simp only [escStr, escChar, if_neg (by decide : ¬('\\' = '"')), if_pos,
          List.cons_append, List.append_assoc]
        rw [parseStrBody.eq_def]
        simp [unescChar, ih]
      · simp only [escStr, escChar, h1, h2, if_neg, List.cons_append, List.append_assoc,
          List.nil_append]
        rw [parseStrBody.eq_def]
        simp [h1, h2, ih]

theorem digit_head_facts {c : Char} (h : isDigit c = true) :
    isWs c = false ∧ c ≠ ']' ∧ c ≠ '\x7d' ∧ c ≠ 'n' ∧ c ≠ 't' ∧ c ≠ 'f' ∧ c ≠ '"'
      ∧ c ≠ '-' ∧ c ≠ '[' ∧ c ≠ '\x7b' := by
  refine ⟨?_, ?_, ?_, ?_, ?_, ?_, ?_, ?_, ?_, ?_⟩
  · have hb : 48 ≤ c.toNat ∧ c.toNat ≤ 57 := by simpa [isDigit] using h
    simp only [isWs, Bool.or_eq_false_iff, decide_eq_false_iff_not]
    refine ⟨⟨⟨?_, ?_⟩, ?_⟩, ?_⟩ <;> rintro rfl <;> revert h <;> decide
  all_goals rintro rfl <;> revert h <;> decide

theorem sser_length_pos (v : JVal) : 1 ≤ (sser v).length := by
  cases v with
  | jnull => simp [sser]
  | jbool b => cases b <;> simp [sser]
  | jint n =>
    cases n with
    | ofNat m =>
      have := natToDigits_ne_nil m
      have : 0 < (natToDigits m).length := List.length_pos.mpr this
      simpa [sser, intToChars] using this
    | negSucc m => simp [sser, intToChars]
  | jstr s => simp [sser]
  | jarr l => cases l <;> simp [sser]
  | jobj l => cases l <;> simp [sser]

theorem sser_head (v : JVal) :
    ∃ c tl, sser v = c :: tl ∧ isWs c = false ∧ c ≠ ']' ∧ c ≠ '\x7d' := by
  cases v with
  | jnull => exact ⟨'n', _, rfl, by decide, by decide, by decide⟩
  | jbool b =>
    cases b
    · exact ⟨'f', _, rfl, by decide, by decide, by decide⟩
    · exact ⟨'t', _, rfl, by decide, by decide, by decide⟩
  | jint n =>
    cases n with
    | ofNat m =>
      obtain ⟨c, tl, hct⟩ := List.exists_cons_of_ne_nil (natToDigits_ne_nil m)
      have hc : isDigit c = true := natToDigits_all_digit m c (by simp [hct])
      obtain ⟨h1, h2, h3, _⟩ := digit_head_facts hc
      exact ⟨c, tl, by simpa [sser, intToChars] using hct, h1, h2, h3⟩
    | negSucc m => exact ⟨'-', _, rfl, by decide, by decide, by decide⟩
  | jstr s => exact ⟨'"', _, rfl, by decide, by decide, by decide⟩
  | jarr l =>
    cases l
    · exact ⟨'[', _, rfl, by decide, by decide, by decide⟩
    · exact ⟨'[', _, rfl, by decide, by decide, by decide⟩
  | jobj l =>
    cases l
    · exact ⟨'\x7b', _, rfl, by decide, by decide, by decide⟩
    · exact ⟨'\x7b', _, rfl, by decide, by decide, by decide⟩

theorem skipWs_cons_of_not_ws {c : Char} (h : isWs c = false) (cs : List Char) :
    skipWs (c :: cs) = c :: cs := by
  simp [skipWs, h]

theorem skipWs_sser (v : JVal) (rest : List Char) :
    skipWs (sser v ++ rest) = sser v ++ rest := by
  obtain ⟨c, tl, hct, hws, -, -⟩ := sser_head v
  rw [hct, List.cons_append, skipWs_cons_of_not_ws hws]

theorem noLeadDigit_sserItems (xs : List JVal) (rest : List Char) :
    noLeadDigit (sserItems xs ++ ']' :: rest) = true := by
  cases xs with
  | nil => simp [sserItems]; exact noLeadDigit_cons _ (by decide)
  | cons y ys => exact noLeadDigit_cons _ (by decide)

theorem noLeadDigit_sserMembers (ms : List (List Char × JVal)) (rest : List Char) :
    noLeadDigit (sserMembers ms ++ '\x7d' :: rest) = true := by
  cases ms with
  | nil => simp [sserMembers]; exact noLeadDigit_cons _ (by decide)
  | cons m ms2 => exact noLeadDigit_cons _ (by decide)

theorem sserItems_length_cons (y : JVal) (ys : List JVal) :
    (sserItems (y :: ys)).length = 1 + (sser y).length + (sserItems ys).length := by
  simp [sserItems]
  omega

theorem sserMembers_length_cons (m : List Char × JVal) (ms : List (List Char × JVal)) :
    (sserMembers (m :: ms)).length = 1 + (sserKV m).length + (sserMembers ms).length := by
  simp [sserMembers]
  omega

theorem sserKV_length (k : List Char) (v : JVal) :
    (sserKV (k, v)).length = 3 + (escStr k).length + (sser v).length := by
  simp [sserKV]
  omega

/-- Soundness of the parser on serializer output: `parseVal` inverts `sser`
given enough fuel, together with the corresponding statements for array item
lists and object member lists. -/
theorem parse_sound (fuel : Nat) :
    (∀ (v : JVal) (rest : List Char), (sser v).length ≤ fuel → noLeadDigit rest = true →
      parseVal fuel (sser v ++ rest) = some (v, rest)) ∧
    (∀ (x : JVal) (xs : List JVal) (rest : List Char),
        (sser x).length + (sserItems xs).length + 1 ≤ fuel → noLeadDigit rest = true →
      parseItems fuel (sser x ++ (sserItems xs ++ ']' :: rest)) = some (x :: xs, rest)) ∧
    (∀ (k : List Char) (v : JVal) (ms : List (List Char × JVal)) (rest : List Char),
        (sserKV (k, v)).length + (sserMembers ms).length + 1 ≤ fuel →
        noLeadDigit rest = true →
      parseMembers fuel (sserKV (k, v) ++ (sserMembers ms ++ '\x7d' :: rest))
        = some ((k, v) :: ms, rest)) := by
  induction fuel with
  | zero =>
    refine ⟨?_, ?_, ?_⟩
    · intro v rest hf _
      have := sser_length_pos v
      omega
    · intro x xs rest hf _
      omega
    · intro k v ms rest hf _
      omega
  | succ fuel ih =>
    obtain ⟨ihV, ihI, ihM⟩ := ih
    refine ⟨?_, ?_, ?_⟩
    · intro v rest hf hr
      cases v with
      | jnull =>
        rw [parseVal]
        rw [show sser JVal.jnull ++ rest = 'n' :: 'u' :: 'l' :: 'l' :: rest from rfl]
        rw [skipWs_cons_of_not_ws (by decide)]
        simp
      | jbool b =>
        cases b
        · rw [parseVal]
          rw [show sser (JVal.jbool false) ++ rest
              = 'f' :: 'a' :: 'l' :: 's' :: 'e' :: rest from rfl]
          rw [skipWs_cons_of_not_ws (by decide)]
          simp
        · rw [parseVal]
          rw [show sser (JVal.jbool true) ++ rest = 't' :: 'r' :: 'u' :: 'e' :: rest from rfl]
          rw [skipWs_cons_of_not_ws (by decide)]
          simp
      | jint n =>
        cases n with
        | ofNat m =>
          obtain ⟨c, tl, hct⟩ := List.exists_cons_of_ne_nil (natToDigits_ne_nil m)
          have hc : isDigit c = true := natToDigits_all_digit m c (by simp [hct])
          obtain ⟨h1, h2, h3, h4, h5, h6, h7, h8, h9, h10⟩ := digit_head_facts hc
          rw [parseVal]
          rw [show sser (JVal.jint (Int.ofNat m)) ++ rest = c :: (tl ++ rest) by
            simp [sser, intToChars, hct]]
          rw [skipWs_cons_of_not_ws h1]
          dsimp only
          rw [if_neg h4, if_neg h5, if_neg h6, if_neg h7, if_neg h8, if_neg h9, if_neg h10,
            if_pos hc]
          rw [show c :: (tl ++ rest) = natToDigits m ++ rest by simp [hct]]
          rw [parseNatAux_natToDigits m rest hr]
          simp
        | negSucc m =>
          obtain ⟨c, tl, hct⟩ := List.exists_cons_of_ne_nil (natToDigits_ne_nil (m + 1))
          have hc : isDigit c = true := natToDigits_all_digit (m + 1) c (by simp [hct])
          rw [parseVal]
          rw [show sser (JVal.jint (Int.negSucc m)) ++ rest
              = '-' :: (natToDigits (m + 1) ++ rest) by simp [sser, intToChars]]
          rw [skipWs_cons_of_not_ws (by decide)]
          dsimp only
          rw [if_neg (show ¬('-' = 'n') by decide), if_neg (show ¬('-' = 't') by decide),
            if_neg (show ¬('-' = 'f') by decide), if_neg (show ¬('-' = '"') by decide),
            if_pos (show '-' = '-' from rfl)]
          rw [hct, List.cons_append]
          dsimp only
          rw [if_pos hc]
          rw [show c :: (tl ++ rest) = natToDigits (m + 1) ++ rest by simp [hct]]
          rw [parseNatAux_natToDigits (m + 1) rest hr]
          simp [Int.negSucc_eq]
      | jstr s =>
        rw [parseVal]
        rw [show sser (JVal.jstr s) ++ rest = '"' :: (escStr s ++ '"' :: rest) by simp [sser]]
        rw [skipWs_cons_of_not_ws (by decide)]
        simp [parseStrBody_escStr]
      | jarr l =>
        cases l with
        | nil =>
          rw [parseVal]
          rw [show sser (JVal.jarr []) ++ rest = '[' :: ']' :: rest from rfl]
          rw [skipWs_cons_of_not_ws (by decide)]
          simp [skipWs_cons_of_not_ws (show isWs ']' = false by decide)]
        | cons x xs =>
          rw [parseVal]
          rw [show sser (JVal.jarr (x :: xs)) ++ rest
              = '[' :: (sser x ++ (sserItems xs ++ ']' :: rest)) by simp [sser]]
          rw [skipWs_cons_of_not_ws (by decide)]
          dsimp only
          rw [if_neg (show ¬('[' = 'n') by decide), if_neg (show ¬('[' = 't') by decide),
            if_neg (show ¬('[' = 'f') by decide), if_neg (show ¬('[' = '"') by decide),
            if_neg (show ¬('[' = '-') by decide), if_pos (show '[' = '[' from rfl)]
          rw [skipWs_sser]
          obtain ⟨c, tl, hct, -, hbr, -⟩ := sser_head x
          rw [hct, List.cons_append]
          split
          · next heq =>
            have hc9 : c = ']' := by
              have h2 := congrArg List.head? heq
              simpa using h2
            exact absurd hc9 hbr
          · rw [← List.cons_append, ← hct,
              ihI x xs rest (by
                have := congrArg List.length (show sser (JVal.jarr (x :: xs))
                    = '[' :: (sser x ++ (sserItems xs ++ [']'])) by simp [sser])
                simp only [List.length_cons, List.length_append, List.length_singleton] at this
                omega) hr]
            simp
      | jobj l =>
        cases l with
        | nil =>
          rw [parseVal]
          rw [show sser (JVal.jobj []) ++ rest = '\x7b' :: '\x7d' :: rest from rfl]
          rw [skipWs_cons_of_not_ws (by decide)]
          simp [skipWs_cons_of_not_ws (show isWs '\x7d' = false by decide)]
        | cons m ms =>
          obtain ⟨k, v⟩ := m
          rw [parseVal]
          rw [show sser (JVal.jobj ((k, v) :: ms)) ++ rest
              = '\x7b' :: (sserKV (k, v) ++ (sserMembers ms ++ '\x7d' :: rest)) by
            simp [sser]]
          rw [skipWs_cons_of_not_ws (by decide)]
          dsimp only
          rw [if_neg (show ¬('\x7b' = 'n') by decide), if_neg (show ¬('\x7b' = 't') by decide),
            if_neg (show ¬('\x7b' = 'f') by decide), if_neg (show ¬('\x7b' = '"') by decide),
            if_neg (show ¬('\x7b' = '-') by decide), if_neg (show ¬('\x7b' = '[') by decide),
            if_pos (show '\x7b' = '\x7b' from rfl)]
          rw [show sserKV (k, v) ++ (sserMembers ms ++ '\x7d' :: rest)
              = '"' :: (escStr k ++ ['"', ':'] ++ sser v ++ (sserMembers ms ++ '\x7d' :: rest))
            by simp [sserKV]]
          rw [skipWs_cons_of_not_ws (by decide)]
          split
          · next heq =>
            have hq : ('"' : Char) = '\x7d' := by
              have h2 := congrArg List.head? heq
              simpa using h2
            exact absurd hq (by decide)
          · rw [show ('"' : Char) :: (escStr k ++ ['"', ':'] ++ sser v
                ++ (sserMembers ms ++ '\x7d' :: rest))
                = sserKV (k, v) ++ (sserMembers ms ++ '\x7d' :: rest) by simp [sserKV]]
            rw [ihM k v ms rest (by
              have := congrArg List.length (show sser (JVal.jobj ((k, v) :: ms))
                  = '\x7b' :: (sserKV (k, v) ++ (sserMembers ms ++ ['\x7d'])) by simp [sser])
              simp only [List.length_cons, List.length_append, List.length_singleton] at this
              omega) hr]
            simp
    · intro x xs rest hf hr
      rw [parseItems]
      rw [ihV x (sserItems xs ++ ']' :: rest) (by omega) (noLeadDigit_sserItems xs rest)]
      dsimp only
      cases xs with
      | nil =>
        rw [show sserItems [] ++ ']' :: rest = ']' :: rest from rfl]
        rw [skipWs_cons_of_not_ws (by decide)]
        dsimp only
        rw [if_neg (show ¬(']' = ',') by decide), if_pos (show ']' = ']' from rfl)]
      | cons y ys =>
        rw [show sserItems (y :: ys) ++ ']' :: rest
            = ',' :: (sser y ++ (sserItems ys ++ ']' :: rest)) by simp [sserItems]]
        rw [skipWs_cons_of_not_ws (by decide)]
        dsimp only
        rw [if_pos (show ',' = ',' from rfl)]
        rw [ihI y ys rest (by
          have := sserItems_length_cons y ys
          omega) hr]
        simp
    · intro k v ms rest hf hr
      rw [parseMembers]
      rw [show sserKV (k, v) ++ (sserMembers ms ++ '\x7d' :: rest)
          = '"' :: (escStr k ++ '"' :: (':' :: (sser v ++ (sserMembers ms ++ '\x7d' :: rest))))
        by simp [sserKV]]
      rw [skipWs_cons_of_not_ws (by decide)]
      dsimp only
      rw [if_pos (show ('"' : Char) = '"' from rfl)]
      rw [parseStrBody_escStr]
      dsimp only
      rw [skipWs_cons_of_not_ws (by decide)]
      dsimp only
      rw [if_pos (show (':' : Char) = ':' from rfl)]
      rw [ihV v (sserMembers ms ++ '\x7d' :: rest) (by
        have := sserKV_length k v
        omega) (noLeadDigit_sserMembers ms rest)]
      dsimp only
      cases ms with
      | nil =>
        rw [show sserMembers [] ++ '\x7d' :: rest = '\x7d' :: rest from rfl]
        rw [skipWs_cons_of_not_ws (by decide)]
        dsimp only
        rw [if_neg (show ¬('\x7d' = ',') by decide), if_pos (show '\x7d' = '\x7d' from rfl)]
      | cons m2 ms2 =>
        obtain ⟨k2, v2⟩ := m2
        rw [show sserMembers ((k2, v2) :: ms2) ++ '\x7d' :: rest
            = ',' :: (sserKV (k2, v2) ++ (sserMembers ms2 ++ '\x7d' :: rest)) by
          simp [sserMembers]]
        rw [skipWs_cons_of_not_ws (by decide)]
        dsimp only
        rw [if_pos (show (',' : Char) = ',' from rfl)]
        rw [ihM k2 v2 ms2 rest (by
          have := sserMembers_length_cons (k2, v2) ms2
          omega) hr]
        simp

/-- `json.loads` inverts serialization: parsing the compact serialization of
any value yields that value back. -/
theorem loads_sser (v : JVal) : loads (sser v) = some v := by
  unfold loads
  have h := (parse_sound ((sser v).length + 1)).1 v [] (by omega) (by rfl)
  rw [List.append_nil] at h
  rw [h]
  rfl

/-! ## Base64 round trip -/

theorem decSex_encSex {n : Nat} (h : n < 64) : decSex (encSex n) = some n := by
  revert h; revert n; decide

theorem encSex_ne_pad {n : Nat} (h : n < 64) : ¬(encSex n = '=') := by
  revert h; revert n; decide

theorem b64_roundtrip (bs : List Nat) (h : ∀ b ∈ bs, b < 256) :
    b64decode (b64encode bs) = some bs := by
  induction bs using b64encode.induct with
  | case1 a b c rest ih =>
    have ha : a < 256 := h a (by simp)
    have hb : b < 256 := h b (by simp)
    have hc : c < 256 := h c (by simp)
    rw [b64encode, b64decode]
    rw [decSex_encSex (show a / 4 < 64 by omega),
      decSex_encSex (show (a % 4) * 16 + b / 16 < 64 by omega)]
    dsimp only
    rw [if_neg (encSex_ne_pad (show (b % 16) * 4 + c / 64 < 64 by omega))]
    rw [decSex_encSex (show (b % 16) * 4 + c / 64 < 64 by omega)]
    dsimp only
    rw [if_neg (encSex_ne_pad (show c % 64 < 64 by omega))]
    rw [decSex_encSex (show c % 64 < 64 by omega)]
    dsimp only
    rw [ih (fun x hx => h x (by simp [hx]))]
    have h1 : a / 4 * 4 + ((a % 4) * 16 + b / 16) / 16 = a := by omega
    have h2 : ((a % 4) * 16 + b / 16) % 16 * 16 + ((b % 16) * 4 + c / 64) / 4 = b := by omega
    have h3 : ((b % 16) * 4 + c / 64) % 4 * 64 + c % 64 = c := by omega
    simp [h1, h2, h3]
  | case2 a b =>
    have ha : a < 256 := h a (by simp)
    have hb : b < 256 := h b (by simp)
    rw [b64encode, b64decode]
    rw [decSex_encSex (show a / 4 < 64 by omega),
      decSex_encSex (show (a % 4) * 16 + b / 16 < 64 by omega)]
    dsimp only
    rw [if_neg (encSex_ne_pad (show (b % 16) * 4 < 64 by omega))]
    rw [decSex_encSex (show (b % 16) * 4 < 64 by omega)]
    dsimp only
    rw [if_pos rfl, if_pos rfl]
    have h1 : a / 4 * 4 + ((a % 4) * 16 + b / 16) / 16 = a := by omega
    have h2 : ((a % 4) * 16 + b / 16) % 16 * 16 + (b % 16) * 4 / 4 = b := by omega
    simp [h1, h2]
    omega
  | case3 a =>
    have ha : a < 256 := h a (by simp)
    rw [b64encode, b64decode]
    rw [decSex_encSex (show a / 4 < 64 by omega),
      decSex_encSex (show (a % 4) * 16 < 64 by omega)]
    dsimp only
    rw [if_pos rfl, if_pos rfl, if_pos rfl]
    have h1 : a / 4 * 4 + (a % 4) * 16 / 16 = a := by omega
    simp [h1]
    omega
  | case4 =>
    rfl

/-! ## Stripping formatting whitespace from the indented serialization -/

theorem stripWsGo_false_drop {c : Char} (h : isWs c = true) (cs : List Char) :
    stripWsGo false (c :: cs) = stripWsGo false cs := by
  rw [stripWsGo]
  simp [h]

theorem stripWsGo_false_keep {c : Char} (h1 : isWs c = false) (h2 : c ≠ '"')
    (cs : List Char) : stripWsGo false (c :: cs) = c :: stripWsGo false cs := by
  rw [stripWsGo]
  simp [h1, h2]

theorem stripWsGo_false_quote (cs : List Char) :
    stripWsGo false ('"' :: cs) = '"' :: stripWsGo true cs := by
  rw [stripWsGo]
  simp [isWs]

theorem stripWsGo_ws_prefix (ws X : List Char) (h : ∀ c ∈ ws, isWs c = true) :
    stripWsGo false (ws ++ X) = stripWsGo false X := by
  induction ws with
  | nil => simp
  | cons c cs ih =>
    rw [List.cons_append, stripWsGo_false_drop (h c (by simp))]
    exact ih (fun c hc => h c (by simp [hc]))

theorem stripWsGo_ind_prefix (d : Nat) (X : List Char) :
    stripWsGo false (ind d ++ X) = stripWsGo false X := by
  refine stripWsGo_ws_prefix _ _ ?_
  intro c hc
  have : c = ' ' := List.eq_of_mem_replicate hc
  subst this
  decide

theorem stripWsGo_keep_list (l X : List Char) (h : ∀ c ∈ l, isWs c = false ∧ c ≠ '"') :
    stripWsGo false (l ++ X) = l ++ stripWsGo false X := by
  induction l with
  | nil => simp
  | cons c cs ih =>
    obtain ⟨h1, h2⟩ := h c (by simp)
    rw [List.cons_append, stripWsGo_false_keep h1 h2, ih (fun c hc => h c (by simp [hc]))]
    rfl

theorem stripWsGo_true_esc2 (e : Char) (cs : List Char) :
    stripWsGo true ('\\' :: e :: cs) = '\\' :: e :: stripWsGo true cs := by
  rw [stripWsGo.eq_def]
  simp

theorem stripWsGo_true_quote (cs : List Char) :
    stripWsGo true ('"' :: cs) = '"' :: stripWsGo false cs := by
  rw [stripWsGo.eq_def]
  simp

theorem stripWsGo_true_other {c : Char} (h1 : c ≠ '\\') (h2 : c ≠ '"') (cs : List Char) :
    stripWsGo true (c :: cs) = c :: stripWsGo true cs := by
  rw [stripWsGo.eq_def]
  simp [h1, h2]

theorem stripWsGo_true_escStr (s rest : List Char) :
    stripWsGo true (escStr s ++ '"' :: rest) = escStr s ++ '"' :: stripWsGo false rest := by
  induction s with
  | nil =>
    simp only [escStr, List.nil_append]
    exact stripWsGo_true_quote rest
  | cons c cs ih =>
    by_cases h1 : c = '"'
    · subst h1
      simp only [escStr, escChar, if_pos, List.cons_append, List.append_assoc,
        List.nil_append]
      rw [stripWsGo_true_esc2, ih]
    · by_cases h2 : c = '\\'
      · subst h2
        simp only [escStr, escChar, if_neg (by decide : ¬('\\' = '"')), if_pos,
          List.cons_append, List.append_assoc, List.nil_append]
        rw [stripWsGo_true_esc2, ih]
      · simp only [escStr, escChar, h1, h2, if_neg, if_false, List.cons_append,
          List.nil_append]
        rw [stripWsGo_true_other h2 h1, ih]

theorem stripWsGo_strlit (s X : List Char) :
    stripWsGo false (('"' :: (escStr s ++ ['"'])) ++ X)
      = '"' :: (escStr s ++ ['"']) ++ stripWsGo false X := by
  rw [List.cons_append, stripWsGo_false_quote]
  rw [show escStr s ++ ['"'] ++ X = escStr s ++ '"' :: X by simp]
  rw [stripWsGo_true_escStr]
  simp

theorem intToChars_plain (n : Int) : ∀ c ∈ intToChars n, isWs c = false ∧ c ≠ '"' := by
  intro c hc
  cases n with
  | ofNat m =>
    have hd : isDigit c = true := natToDigits_all_digit m c (by simpa [intToChars] using hc)
    obtain ⟨h1, -, -, -, -, -, h7, -⟩ := digit_head_facts hd
    exact ⟨h1, h7⟩
  | negSucc m =>
    simp only [intToChars, List.mem_cons] at hc
    rcases hc with rfl | hc
    · exact ⟨by decide, by decide⟩
    · have hd : isDigit c = true := natToDigits_all_digit (m + 1) c hc
      obtain ⟨h1, -, -, -, -, -, h7, -⟩ := digit_head_facts hd
      exact ⟨h1, h7⟩

/-- Removing formatting whitespace from the indented serialization yields the
compact serialization (stated for values, item lists and member lists at once,
by strong induction on size). -/
theorem strip_iser_all (N : Nat) :
    (∀ (v : JVal) (d : Nat) (rest : List Char), sizeOf v ≤ N →
      stripWsGo false (iser d v ++ rest) = sser v ++ stripWsGo false rest) ∧
    (∀ (xs : List JVal) (d : Nat) (rest : List Char), sizeOf xs ≤ N →
      stripWsGo false (iserItems d xs ++ rest) = sserItems xs ++ stripWsGo false rest) ∧
    (∀ (ms : List (List Char × JVal)) (d : Nat) (rest : List Char), sizeOf ms ≤ N →
      stripWsGo false (iserMembers d ms ++ rest) = sserMembers ms ++ stripWsGo false rest)
    := by
  induction N using Nat.strong_induction_on with
  | _ N ih =>
    refine ⟨?_, ?_, ?_⟩
    · intro v d rest hN
      cases v with
      | jnull =>
        rw [show iser d JVal.jnull = sser JVal.jnull from rfl]
        exact stripWsGo_keep_list _ _ (by decide)
      | jbool b =>
        cases b
        · rw [show iser d (JVal.jbool false) = sser (JVal.jbool false) from rfl]
          exact stripWsGo_keep_list _ _ (by decide)
        · rw [show iser d (JVal.jbool true) = sser (JVal.jbool true) from rfl]
          exact stripWsGo_keep_list _ _ (by decide)
      | jint n =>
        rw [show iser d (JVal.jint n) = intToChars n from rfl,
          show sser (JVal.jint n) = intToChars n from rfl]
        exact stripWsGo_keep_list _ _ (intToChars_plain n)
      | jstr s =>
        rw [show iser d (JVal.jstr s) = '"' :: (escStr s ++ ['"']) from rfl,
          show sser (JVal.jstr s) = '"' :: (escStr s ++ ['"']) from rfl]
        exact stripWsGo_strlit s rest
      | jarr l =>
        cases l with
        | nil =>
          rw [show iser d (JVal.jarr []) = sser (JVal.jarr []) from rfl]
          exact stripWsGo_keep_list _ _ (by decide)
        | cons x xs =>
          have hx : sizeOf x ≤ sizeOf x := le_refl _
          have hsx : sizeOf x < N := by
            have : sizeOf (JVal.jarr (x :: xs)) ≤ N := hN
            simp only [JVal.jarr.sizeOf_spec, List.cons.sizeOf_spec] at this
            omega
          have hsxs : sizeOf xs < N := by
            have : sizeOf (JVal.jarr (x :: xs)) ≤ N := hN
            simp only [JVal.jarr.sizeOf_spec, List.cons.sizeOf_spec] at this
            omega
          rw [show iser d (JVal.jarr (x :: xs)) ++ rest
              = '[' :: ('\n' :: (ind (d + 1)
                ++ (iser (d + 1) x ++ (iserItems (d + 1) xs
                  ++ '\n' :: (ind d ++ (']' :: rest)))))) by simp [iser]]
          rw [stripWsGo_false_keep (by decide) (by decide),
            stripWsGo_false_drop (by decide), stripWsGo_ind_prefix]
          rw [(ih (sizeOf x) hsx).1 x (d + 1) _ (le_refl _)]
          rw [(ih (sizeOf xs) hsxs).2.1 xs (d + 1) _ (le_refl _)]
          rw [stripWsGo_false_drop (by decide), stripWsGo_ind_prefix]
          rw [stripWsGo_false_keep (by decide) (by decide)]
          simp [sser]
      | jobj l =>
        cases l with
        | nil =>
          rw [show iser d (JVal.jobj []) = sser (JVal.jobj []) from rfl]
          exact stripWsGo_keep_list _ _ (by decide)
        | cons m ms =>
          obtain ⟨k, v⟩ := m
          have hsv : sizeOf v < N := by
            have : sizeOf (JVal.jobj ((k, v) :: ms)) ≤ N := hN
            simp only [JVal.jobj.sizeOf_spec, List.cons.sizeOf_spec, Prod.mk.sizeOf_spec]
              at this
            omega
          have hsms : sizeOf ms < N := by
            have : sizeOf (JVal.jobj ((k, v) :: ms)) ≤ N := hN
            simp only [JVal.jobj.sizeOf_spec, List.cons.sizeOf_spec, Prod.mk.sizeOf_spec]
              at this
            omega
          rw [show iser d (JVal.jobj ((k, v) :: ms)) ++ rest
              = '\x7b' :: ('\n' :: (ind (d + 1)
                ++ (('"' :: (escStr k ++ ['"'])) ++ (':' :: (' ' :: (iser (d + 1) v
                  ++ (iserMembers (d + 1) ms
                    ++ '\n' :: (ind d ++ ('\x7d' :: rest))))))))) by simp [iser, iserKV]]
          rw [stripWsGo_false_keep (by decide) (by decide),
            stripWsGo_false_drop (by decide), stripWsGo_ind_prefix]
          rw [stripWsGo_strlit]
          rw [stripWsGo_false_keep (by decide) (by decide),
            stripWsGo_false_drop (by decide)]
          rw [(ih (sizeOf v) hsv).1 v (d + 1) _ (le_refl _)]
          rw [(ih (sizeOf ms) hsms).2.2 ms (d + 1) _ (le_refl _)]
          rw [stripWsGo_false_drop (by decide), stripWsGo_ind_prefix]
          rw [stripWsGo_false_keep (by decide) (by decide)]
          simp [sser, sserKV]
    · intro xs d rest hN
      cases xs with
      | nil => simp [iserItems, sserItems]
      | cons x xs2 =>
        have hsx : sizeOf x < N := by
          have : sizeOf (x :: xs2) ≤ N := hN
          simp only [List.cons.sizeOf_spec] at this
          omega
        have hsxs : sizeOf xs2 < N := by
          have : sizeOf (x :: xs2) ≤ N := hN
          simp only [List.cons.sizeOf_spec] at this
          omega
        rw [show iserItems d (x :: xs2) ++ rest
            = ',' :: ('\n' :: (ind d ++ (iser d x ++ (iserItems d xs2 ++ rest)))) by
          simp [iserItems]]
        rw [stripWsGo_false_keep (by decide) (by decide),
          stripWsGo_false_drop (by decide), stripWsGo_ind_prefix]
        rw [(ih (sizeOf x) hsx).1 x d _ (le_refl _)]
        rw [(ih (sizeOf xs2) hsxs).2.1 xs2 d _ (le_refl _)]
        simp [sserItems]
    · intro ms d rest hN
      cases ms with
      | nil => simp [iserMembers, sserMembers]
      | cons m ms2 =>
        obtain ⟨k, v⟩ := m
        have hsv : sizeOf v < N := by
          have : sizeOf ((k, v) :: ms2) ≤ N := hN
          simp only [List.cons.sizeOf_spec, Prod.mk.sizeOf_spec] at this
          omega
        have hsms : sizeOf ms2 < N := by
          have : sizeOf ((k, v) :: ms2) ≤ N := hN
          simp only [List.cons.sizeOf_spec, Prod.mk.sizeOf_spec] at this
          omega
        rw [show iserMembers d ((k, v) :: ms2) ++ rest
            = ',' :: ('\n' :: (ind d ++ (('"' :: (escStr k ++ ['"']))
              ++ (':' :: (' ' :: (iser d v ++ (iserMembers d ms2 ++ rest))))))) by
          simp [iserMembers, iserKV]]
        rw [stripWsGo_false_keep (by decide) (by decide),
          stripWsGo_false_drop (by decide), stripWsGo_ind_prefix]
        rw [stripWsGo_strlit]
        rw [stripWsGo_false_keep (by decide) (by decide),
          stripWsGo_false_drop (by decide)]
        rw [(ih (sizeOf v) hsv).1 v d _ (le_refl _)]
        rw [(ih (sizeOf ms2) hsms).2.2 ms2 d _ (le_refl _)]
        simp [sserMembers, sserKV]

/-- Removing formatting whitespace from `json.dumps(v, indent=4)` gives the
compact serialization of `v`. -/
theorem stripWs_iser (v : JVal) : stripWs (iser 0 v) = sser v := by
  have h := (strip_iser_all (sizeOf v)).1 v 0 [] (le_refl _)
  rw [List.append_nil] at h
  unfold stripWs
  rw [h]
  simp [stripWsGo]

/-! ## Printable-ASCII well-formedness

`json.dumps` escapes control and non-ASCII characters as `\uXXXX`, which is
outside the modelled escape set, so the modelled value universe restricts
string contents to printable ASCII (codes 32-126); `"` and `\` are inside the
range and are handled by the modelled escaping. -/

/-- Printable-ASCII character test. -/
def asciiOk (c : Char) : Bool := 32 ≤ c.toNat && c.toNat ≤ 126

mutual

/-- Well-formedness of a JSON value for the modelled serialization: every
string (and key) consists of printable ASCII. -/
def jwf : JVal → Bool
  | .jnull => true
  | .jbool _ => true
  | .jint _ => true
  | .jstr s => s.all asciiOk
  | .jarr l => jwfL l
  | .jobj l => jwfM l

/-- Well-formedness of a list of JSON values. -/
def jwfL : List JVal → Bool
  | [] => true
  | x :: xs => jwf x && jwfL xs

/-- Well-formedness of a list of object members. -/
def jwfM : List (List Char × JVal) → Bool
  | [] => true
  | m :: ms => m.1.all asciiOk && jwf m.2 && jwfM ms

end

theorem isDigit_ascii {c : Char} (h : isDigit c = true) : c.toNat < 128 := by
  simp only [isDigit, Bool.and_eq_true, decide_eq_true_eq] at h
  omega

theorem natToDigits_ascii (n : Nat) : ∀ c ∈ natToDigits n, c.toNat < 128 :=
  fun c hc => isDigit_ascii (natToDigits_all_digit n c hc)

theorem intToChars_ascii (n : Int) : ∀ c ∈ intToChars n, c.toNat < 128 := by
  intro c hc
  cases n with
  | ofNat m => exact natToDigits_ascii m c (by simpa [intToChars] using hc)
  | negSucc m =>
    simp only [intToChars, List.mem_cons] at hc
    rcases hc with rfl | hc
    · decide
    · exact natToDigits_ascii (m + 1) c hc

theorem escStr_ascii (s : List Char) (h : s.all asciiOk = true) :
    ∀ c ∈ escStr s, c.toNat < 128 := by
  induction s with
  | nil => intro c hc; simp [escStr] at hc
  | cons c0 cs ih =>
    simp only [List.all_cons, Bool.and_eq_true] at h
    rw [show escStr (c0 :: cs) = escChar c0 ++ escStr cs from rfl, List.forall_mem_append]
    refine ⟨?_, ih h.2⟩
    by_cases h1 : c0 = '"'
    · subst h1
      decide
    · by_cases h2 : c0 = '\\'
      · subst h2
        decide
      · rw [show escChar c0 = [c0] by simp [escChar, h1, h2]]
        intro c hc
        simp only [List.mem_singleton] at hc
        subst hc
        have h3 := h.1
        simp only [asciiOk, Bool.and_eq_true, decide_eq_true_eq] at h3
        omega

/-- Every character of the compact serialization of a well-formed value is
ASCII. -/
theorem sser_ascii_all (N : Nat) :
    (∀ (v : JVal), sizeOf v ≤ N → jwf v = true → ∀ c ∈ sser v, c.toNat < 128) ∧
    (∀ (xs : List JVal), sizeOf xs ≤ N → jwfL xs = true →
      ∀ c ∈ sserItems xs, c.toNat < 128) ∧
    (∀ (ms : List (List Char × JVal)), sizeOf ms ≤ N → jwfM ms = true →
      ∀ c ∈ sserMembers ms, c.toNat < 128) := by
  induction N using Nat.strong_induction_on with
  | _ N ih =>
    refine ⟨?_, ?_, ?_⟩
    · intro v hN hwf
      cases v with
      | jnull => decide
      | jbool b => cases b <;> decide
      | jint n => exact intToChars_ascii n
      | jstr s =>
        rw [show sser (JVal.jstr s) = '"' :: (escStr s ++ ['"']) from rfl]
        rw [List.forall_mem_cons, List.forall_mem_append]
        exact ⟨by decide, escStr_ascii s (by simpa [jwf] using hwf), by decide⟩
      | jarr l =>
        cases l with
        | nil => decide
        | cons x xs =>
          have hwf2 : jwf x = true ∧ jwfL xs = true := by
            have h0 : jwfL (x :: xs) = true := hwf
            simpa [jwfL, Bool.and_eq_true] using h0
          have hsx : sizeOf x < N := by
            have h0 : sizeOf (JVal.jarr (x :: xs)) ≤ N := hN
            simp only [JVal.jarr.sizeOf_spec, List.cons.sizeOf_spec] at h0
            omega
          have hsxs : sizeOf xs < N := by
            have h0 : sizeOf (JVal.jarr (x :: xs)) ≤ N := hN
            simp only [JVal.jarr.sizeOf_spec, List.cons.sizeOf_spec] at h0
            omega
          rw [show sser (JVal.jarr (x :: xs))
              = '[' :: (sser x ++ sserItems xs ++ [']']) from rfl]
          rw [List.forall_mem_cons, List.forall_mem_append, List.forall_mem_append]
          exact ⟨by decide, ⟨(ih (sizeOf x) hsx).1 x (le_refl _) hwf2.1,
            (ih (sizeOf xs) hsxs).2.1 xs (le_refl _) hwf2.2⟩, by decide⟩
      | jobj l =>
        cases l with
        | nil => decide
        | cons m ms =>
          obtain ⟨k, v⟩ := m
          have hwf2 : k.all asciiOk = true ∧ jwf v = true ∧ jwfM ms = true := by
            have h0 : jwfM ((k, v) :: ms) = true := hwf
            simpa [jwfM, Bool.and_eq_true, and_assoc] using h0
          have hsv : sizeOf v < N := by
            have h0 : sizeOf (JVal.jobj ((k, v) :: ms)) ≤ N := hN
            simp only [JVal.jobj.sizeOf_spec, List.cons.sizeOf_spec,
              Prod.mk.sizeOf_spec] at h0
            omega
          have hsms : sizeOf ms < N := by
            have h0 : sizeOf (JVal.jobj ((k, v) :: ms)) ≤ N := hN
            simp only [JVal.jobj.sizeOf_spec, List.cons.sizeOf_spec,
              Prod.mk.sizeOf_spec] at h0
            omega
          rw [show sser (JVal.jobj ((k, v) :: ms))
              = '\x7b' :: (sserKV (k, v) ++ sserMembers ms ++ ['\x7d']) from rfl]
          rw [show sserKV (k, v) = '"' :: (escStr k ++ ['"', ':'] ++ sser v) from rfl]
          rw [List.forall_mem_cons, List.forall_mem_append, List.forall_mem_append,
            List.forall_mem_cons, List.forall_mem_append, List.forall_mem_append]
          refine ⟨by decide, ⟨⟨by decide, ⟨escStr_ascii k hwf2.1, by decide⟩,
            (ih (sizeOf v) hsv).1 v (le_refl _) hwf2.2.1⟩,
            (ih (sizeOf ms) hsms).2.2 ms (le_refl _) hwf2.2.2⟩, by decide⟩
    · intro xs hN hwf
      cases xs with
      | nil => intro c hc; simp [sserItems] at hc
      | cons x xs2 =>
        have hwf2 : jwf x = true ∧ jwfL xs2 = true := by
          simpa [jwfL, Bool.and_eq_true] using hwf
        have hsx : sizeOf x < N := by
          have h0 : sizeOf (x :: xs2) ≤ N := hN
          simp only [List.cons.sizeOf_spec] at h0
          omega
        have hsxs : sizeOf xs2 < N := by
          have h0 : sizeOf (x :: xs2) ≤ N := hN
          simp only [List.cons.sizeOf_spec] at h0
          omega
        rw [show sserItems (x :: xs2) = ',' :: (sser x ++ sserItems xs2) from rfl]
        rw [List.forall_mem_cons, List.forall_mem_append]
        exact ⟨by decide, (ih (sizeOf x) hsx).1 x (le_refl _) hwf2.1,
          (ih (sizeOf xs2) hsxs).2.1 xs2 (le_refl _) hwf2.2⟩
    · intro ms hN hwf
      cases ms with
      | nil => intro c hc; simp [sserMembers] at hc
      | cons m ms2 =>
        obtain ⟨k, v⟩ := m
        have hwf2 : k.all asciiOk = true ∧ jwf v = true ∧ jwfM ms2 = true := by
          simpa [jwfM, Bool.and_eq_true, and_assoc] using hwf
        have hsv : sizeOf v < N := by
          have h0 : sizeOf ((k, v) :: ms2) ≤ N := hN
          simp only [List.cons.sizeOf_spec, Prod.mk.sizeOf_spec] at h0
          omega
        have hsms : sizeOf ms2 < N := by
          have h0 : sizeOf ((k, v) :: ms2) ≤ N := hN
          simp only [List.cons.sizeOf_spec, Prod.mk.sizeOf_spec] at h0
          omega
        rw [show sserMembers ((k, v) :: ms2) = ',' :: (sserKV (k, v) ++ sserMembers ms2)
          from rfl]
        rw [show sserKV (k, v) = '"' :: (escStr k ++ ['"', ':'] ++ sser v) from rfl]
        rw [List.forall_mem_cons, List.forall_mem_append, List.forall_mem_cons,
          List.forall_mem_append, List.forall_mem_append]
        exact ⟨by decide, ⟨by decide, ⟨escStr_ascii k hwf2.1, by decide⟩,
          (ih (sizeOf v) hsv).1 v (le_refl _) hwf2.2.1⟩,
          (ih (sizeOf ms2) hsms).2.2 ms2 (le_refl _) hwf2.2.2⟩

theorem sser_ascii (v : JVal) (h : jwf v = true) : ∀ c ∈ sser v, c.toNat < 128 :=
  (sser_ascii_all (sizeOf v)).1 v (le_refl _) h

theorem strBytes_lt256 (cs : List Char) (h : ∀ c ∈ cs, c.toNat < 128) :
    ∀ b ∈ strBytes cs, b < 256 := by
  intro b hb
  simp only [strBytes, List.mem_map] at hb
  obtain ⟨c, hc, rfl⟩ := hb
  have := h c hc
  omega

theorem asciiDecode_strBytes (cs : List Char) (h : ∀ c ∈ cs, c.toNat < 128) :
    asciiDecode (strBytes cs) = some cs := by
  unfold asciiDecode
  rw [if_pos]
  · congr 1
    rw [strBytes, List.map_map]
    have hco : Char.ofNat ∘ Char.toNat = id := funext Char.ofNat_toNat
    rw [hco, List.map_id]
  · simp only [strBytes, List.all_eq_true]
    intro b hb
    simp only [List.mem_map] at hb
    obtain ⟨c, hc, rfl⟩ := hb
    simpa using h c hc

/-- End-to-end round trip of `policy_decode`: on the base64 encoding of the
serialization of a well-formed value, it succeeds, returns the `indent=4`
rendering, and that rendering reparses to the original value once formatting
whitespace is removed. -/
theorem policy_decode_core_roundtrip (v : JVal) (h : jwf v = true) :
    policy_decode_core (b64encode (strBytes (sser v))) = .ok (iser 0 v) ∧
    loads (stripWs (iser 0 v)) = some v := by
  have hascii : ∀ c ∈ sser v, c.toNat < 128 := sser_ascii v h
  constructor
  · unfold policy_decode_core
    rw [b64_roundtrip _ (strBytes_lt256 _ hascii)]
    dsimp only
    rw [asciiDecode_strBytes _ hascii]
    dsimp only
    rw [loads_sser]
  · rw [stripWs_iser, loads_sser]

/-! ## The facade state

`S3Connection` (cloudspark/s3_connect.py) extends `AWSConnection`
(aws_connect.py).  Instance state: the credentials captured at construction,
the lazily constructed session (`_session`) and S3 client (`__s3_instance`),
and the remembered bucket name (`_bucket_name`).  Sessions and clients are
opaque boto3 handles; the model identifies them by freshly allocated numeric
ids (`nextId` is the allocator), so that "reference-identical" is id
equality.  Side effects (upstream network calls, `console_print` output, and
the local constructions `boto3.Session()` / `session.client('s3')`) are
recorded in an event trace. -/

/-- Instance state of an `S3Connection` facade. -/
structure FacadeState where
  access_key : String
  secret_access_key : String
  region_name : String
  /-- `self._session` (None until `session_connect`). -/
  session : Option Nat
  /-- `self.__s3_instance` (None until `connect`). -/
  s3_instance : Option Nat
  /-- `self._bucket_name`. -/
  bucket_name : Option String
  /-- Allocator for fresh handle ids (model device). -/
  nextId : Nat
deriving Repr, DecidableEq

/-- State of a fresh facade as produced by `__init__`: credentials stored,
no session, no client, no bucket. -/
def S3Connection_init (access_key secret_access_key region_name : String) : FacadeState :=
  { access_key := access_key
    secret_access_key := secret_access_key
    region_name := region_name
    session := none
    s3_instance := none
    bucket_name := none
    nextId := 0 }

/-- Upstream calls the facade can issue. -/
inductive Net where
  | headBucket (bucket : String)
  | createBucket (bucket : String) (locationConstraint : Option String)
  | putBucketCors (bucket : String) (config : JVal)
  | getBucketCors (bucket : String)
  | deleteBucketCors (bucket : String)
  | putBucketPolicy (bucket : String) (policy : List Char)
  | deleteBucketPolicy (bucket : String)
  | getBucketPolicy (bucket : String)
  | iamListUserPolicies (user : String)
  | putPublicAccessBlock (bucket : String) (block : Bool)
  | stsGetSessionToken (durationSeconds : Nat)
  | putObject (bucket key : String)
  | getObject (bucket key : String)
  | headObject (bucket key : String)
  | deleteObject (bucket key : String)
  | listObjectsV2 (bucket : String)
deriving Repr

/-- Trace events: resource constructions, upstream calls, console output. -/
inductive Ev where
  | newSession
  | newClient
  | net (n : Net)
  | log (msg : String) (color : String)
deriving Repr

/-- The upstream calls recorded in a trace. -/
def netCalls (evs : List Ev) : List Net :=
  evs.filterMap (fun e => match e with | .net n => some n | _ => none)

/-- Number of `boto3.Session()` constructions in a trace. -/
def countNewSession (evs : List Ev) : Nat :=
  (evs.filter (fun e => match e with | .newSession => true | _ => false)).length

/-- Number of `session.client('s3')` constructions in a trace. -/
def countNewClient (evs : List Ev) : Nat :=
  (evs.filter (fun e => match e with | .newClient => true | _ => false)).length

/-- Errors a call can raise. -/
inductive Err where
  /-- Python `AssertionError` with its message. -/
  | assertionError (msg : String)
  /-- Python `AttributeError` from an attribute access on `None`. -/
  | attributeErrorNone
  /-- botocore `ClientError` propagated unchanged, identified by its code. -/
  | clientError (code : String)
  /-- Any other exception propagated unchanged (STS path). -/
  | exc (msg : String)
  /-- Decode failure propagated from `policy_decode`. -/
  | decodeError (msg : String)
deriving Repr, DecidableEq

/-- Result of one facade call: post-state, return value or raised error, and
the trace of events the call produced. -/
structure Eff (α : Type) where
  st : FacadeState
  res : Except Err α
  evs : List Ev

/-- Python truthiness of the remembered bucket name (`None` and `""` are
falsy). -/
def bucketTruthy : Option String → Bool
  | none => false
  | some s => s != ""

/-- The `assert self.__s3_instance and self._bucket_name` precondition. -/
def connAssert (st : FacadeState) : Bool :=
  st.s3_instance.isSome && bucketTruthy st.bucket_name

/-- Python truthiness of a JSON value. -/
def pyTruthy : JVal → Bool
  | .jnull => false
  | .jbool b => b
  | .jint n => n != 0
  | .jstr s => !s.isEmpty
  | .jarr l => !l.isEmpty
  | .jobj l => !l.isEmpty

/-! ## Connection establishment -/

/-- `AWSConnection.session_connect` (app/aws_connect.py, lines 21-33; the
cloudspark variant inherits the same memoization, additionally passing the
session token): construct the boto3 session on first call, return the
memoized one afterwards. -/
def session_connect (st : FacadeState) : Eff Nat :=
  match st.session with
  | some s => ⟨st, .ok s, []⟩
  | none =>
      ⟨{ st with session := some st.nextId, nextId := st.nextId + 1 },
       .ok st.nextId, [.newSession]⟩

/-- `S3Connection.connect` (cloudspark/s3_connect.py, lines 34-50; identical
control flow to `s3_connect` of app/s3_connect.py, lines 25-41, which omits
only the signing `Config`): ensure the session exists, construct the client
at most once, remember a truthy bucket name, return the client. -/
def connect (st0 : FacadeState) (bucket_name : Option String) : Eff Nat :=
  let e1 : FacadeState × List Ev :=
    match st0.session with
    | none => ((session_connect st0).st, (session_connect st0).evs)
    | some _ => (st0, [])
  let st1 := e1.1
  let e2 : FacadeState × Nat × List Ev :=
    match st1.s3_instance with
    | none =>
        ({ st1 with s3_instance := some st1.nextId, nextId := st1.nextId + 1 },
         st1.nextId, [.newClient])
    | some c => (st1, c, [])
  let st2 := e2.1
  let st3 :=
    match bucket_name with
    | some bn => if bn = "" then st2 else { st2 with bucket_name := some bn }
    | none => st2
  ⟨st3, .ok e2.2.1, e1.2 ++ e2.2.2⟩

/-- `S3Connection.get_instance` (cloudspark/s3_connect.py, lines 52-60). -/
def get_instance (st : FacadeState) : Eff Nat :=
  match st.s3_instance with
  | some c => ⟨st, .ok c, []⟩
  | none =>
      ⟨st, .error (.assertionError
        "S3 connection not established. Please use connect(bucket_name)."), []⟩

/-! ## Bucket creation -/

/-- The remote bucket namespace (modelled environment: `head_bucket` reports
`404` exactly for absent buckets). -/
structure World where
  buckets : List String
deriving Repr, DecidableEq

/-- Upstream `head_bucket` against the modelled world. -/
def head_bucket (w : World) (bucket_name : String) : Except String Unit :=
  if bucket_name ∈ w.buckets then .ok () else .error "404"

/-- `S3Connection.create_s3bucket` (cloudspark/s3_connect.py, lines 62-93;
app/s3_connect.py, lines 43-72, is identical up to the assert message):
head the bucket; on existence log "already exists"; on 404 create it with a
location constraint unless the region is us-east-1; then connect to it. -/
def create_s3bucket (w : World) (st : FacadeState) (bucket_name : String) :
    World × Eff Nat :=
  match st.s3_instance with
  | none =>
      (w, ⟨st, .error (.assertionError
        "S3 connection not established. Please use connect()."), []⟩)
  | some _ =>
    match head_bucket w bucket_name with
    | .ok _ =>
        let e := connect st (some bucket_name)
        (w, ⟨e.st, e.res,
          .net (.headBucket bucket_name)
            :: .log ("Bucket '" ++ bucket_name ++ "' already exists.") "error"
            :: e.evs⟩)
    | .error error_code =>
      if error_code = "404" then
        let loc := if st.region_name = "us-east-1" then none else some st.region_name
        let w2 : World := ⟨w.buckets ++ [bucket_name]⟩
        let e := connect st (some bucket_name)
        (w2, ⟨e.st, e.res,
          .net (.headBucket bucket_name)
            :: .net (.createBucket bucket_name loc)
            :: .log ("Bucket '" ++ bucket_name ++ "' created successfully.") "success"
            :: e.evs⟩)
      else
        (w, ⟨st, .error (.clientError error_code),
          [.net (.headBucket bucket_name),
           .log ("An error occurred: " ++ error_code) "error"]⟩)

/-! ## CORS, policy, public access -/

/-- The default CORS rule list of `set_bucket_cors`. -/
def default_CORSRules : JVal :=
  .jarr [.jobj
    [("AllowedHeaders".data, .jarr [.jstr "*".data]),
     ("AllowedMethods".data, .jarr [.jstr "GET".data, .jstr "POST".data,
        .jstr "PUT".data, .jstr "HEAD".data, .jstr "DELETE".data]),
     ("AllowedOrigins".data, .jarr [.jstr "*".data]),
     ("ExposeHeaders".data, .jarr []),
     ("MaxAgeSeconds".data, .jint 3000)]]

/-- `S3Connection.set_bucket_cors` (cloudspark/s3_connect.py, lines 95-124):
assert the connection, apply the caller's rules if truthy else the default,
one `put_bucket_cors` call; no try/except, so an upstream error propagates. -/
def set_bucket_cors (st : FacadeState) (CORSRules : Option (List JVal))
    (outcome : Except String Unit) : Eff Nat :=
  if connAssert st = false then
    ⟨st, .error (.assertionError
      "S3 connection not established. Please use connect(bucket_name)."), []⟩
  else
    let rules : JVal :=
      match CORSRules with
      | some rs => if rs.isEmpty then default_CORSRules else .jarr rs
      | none => default_CORSRules
    let cors_configuration : JVal := .jobj [("CORSRules".data, rules)]
    let bn := st.bucket_name.getD ""
    match outcome with
    | .ok _ =>
        ⟨st, .ok (st.s3_instance.getD 0),
         [.net (.putBucketCors bn cors_configuration),
          .log ("CORS configuration set for bucket '" ++ bn ++ "'.") "success"]⟩
    | .error code =>
        ⟨st, .error (.clientError code), [.net (.putBucketCors bn cors_configuration)]⟩

/-- `S3Connection.get_bucket_cors` (cloudspark/s3_connect.py, lines 126-142). -/
def get_bucket_cors (st : FacadeState) (outcome : Except String JVal) : Eff JVal :=
  if connAssert st = false then
    ⟨st, .error (.assertionError
      "S3 connection not established. Please use connect(bucket_name)."), []⟩
  else
    let bn := st.bucket_name.getD ""
    match outcome with
    | .ok resp => ⟨st, .ok resp, [.net (.getBucketCors bn)]⟩
    | .error code =>
        ⟨st, .error (.clientError code),
         [.net (.getBucketCors bn), .log ("An error occurred: " ++ code) "error"]⟩

/-- `S3Connection.delete_bucket_cors` (cloudspark/s3_connect.py,
lines 144-157). -/
def delete_bucket_cors (st : FacadeState) (outcome : Except String Unit) : Eff Nat :=
  if connAssert st = false then
    ⟨st, .error (.assertionError
      "S3 connection not established. Please use connect(bucket_name)."), []⟩
  else
    let bn := st.bucket_name.getD ""
    match outcome with
    | .ok _ => ⟨st, .ok (st.s3_instance.getD 0), [.net (.deleteBucketCors bn)]⟩
    | .error code =>
        ⟨st, .error (.clientError code),
         [.net (.deleteBucketCors bn), .log ("An error occurred: " ++ code) "error"]⟩

/-- The default public-read bucket policy of `set_bucket_policy`. -/
def default_bucket_policy (bucket : String) : JVal :=
  .jobj [("Version".data, .jstr "2012-10-17".data),
         ("Statement".data, .jarr [.jobj
           [("Sid".data, .jstr "PublicReadGetObject".data),
            ("Effect".data, .jstr "Allow".data),
            ("Principal".data, .jstr "*".data),
            ("Action".data, .jstr "s3:*".data),
            ("Resource".data, .jstr ("arn:aws:s3:::" ++ bucket ++ "/*").data)]])]

/-- `S3Connection.set_bucket_policy` (cloudspark/s3_connect.py,
lines 159-200): a falsy policy argument is replaced by the serialized default
policy, a dict argument is serialized, a string argument passes through; one
`put_bucket_policy` call; an `AccessDenied` failure gets a dedicated log
line, any failure is re-raised. -/
def set_bucket_policy (st : FacadeState) (bucket_policy : Option (Sum String JVal))
    (outcome : Except String Unit) : Eff Nat :=
  if connAssert st = false then
    ⟨st, .error (.assertionError
      "S3 connection not established. Please use connect(bucket_name)."), []⟩
  else
    let bn := st.bucket_name.getD ""
    let policyStr : List Char :=
      match bucket_policy with
      | some (.inl s) => if s = "" then sser (default_bucket_policy bn) else s.data
      | some (.inr j) =>
          if pyTruthy j then sser j else sser (default_bucket_policy bn)
      | none => sser (default_bucket_policy bn)
    match outcome with
    | .ok _ =>
        ⟨st, .ok (st.s3_instance.getD 0),
         [.net (.putBucketPolicy bn policyStr),
          .log "Bucket policy updated successfully." "success"]⟩
    | .error code =>
        ⟨st, .error (.clientError code),
         [.net (.putBucketPolicy bn policyStr),
          if code = "AccessDenied" then
            .log "Access denied: insufficient permissions to set the bucket policy." "error"
          else .log ("An error occurred: " ++ code) "error"]⟩

/-- `S3Connection.delete_bucket_policy` (cloudspark/s3_connect.py,
lines 202-215). -/
def delete_bucket_policy (st : FacadeState) (outcome : Except String Unit) : Eff Nat :=
  if connAssert st = false then
    ⟨st, .error (.assertionError
      "S3 connection not established. Please use connect(bucket_name)."), []⟩
  else
    let bn := st.bucket_name.getD ""
    match outcome with
    | .ok _ => ⟨st, .ok (st.s3_instance.getD 0), [.net (.deleteBucketPolicy bn)]⟩
    | .error code =>
        ⟨st, .error (.clientError code),
         [.net (.deleteBucketPolicy bn), .log ("An error occurred: " ++ code) "error"]⟩

/-- `S3Connection.get_bucket_policy` (cloudspark/s3_connect.py,
lines 217-230). -/
def get_bucket_policy (st : FacadeState) (outcome : Except String JVal) : Eff JVal :=
  if connAssert st = false then
    ⟨st, .error (.assertionError
      "S3 connection not established. Please use connect(bucket_name)."), []⟩
  else
    let bn := st.bucket_name.getD ""
    match outcome with
    | .ok resp => ⟨st, .ok resp, [.net (.getBucketPolicy bn)]⟩
    | .error code =>
        ⟨st, .error (.clientError code),
         [.net (.getBucketPolicy bn), .log ("An error occurred: " ++ code) "error"]⟩

/-- `S3Connection.list_user_policies` (cloudspark/s3_connect.py,
lines 232-243): asserts the session (not the client), then one IAM call with
no try/except. -/
def list_user_policies (st : FacadeState) (UserName : String)
    (outcome : Except String JVal) : Eff JVal :=
  match st.session with
  | none =>
      ⟨st, .error (.assertionError
        "S3 connection not established. Please use connect()."), []⟩
  | some _ =>
    match outcome with
    | .ok resp => ⟨st, .ok resp, [.net (.iamListUserPolicies UserName)]⟩
    | .error code =>
        ⟨st, .error (.clientError code), [.net (.iamListUserPolicies UserName)]⟩

/-- `S3Connection.public_access` (cloudspark/s3_connect.py, lines 245-274). -/
def public_access (st : FacadeState) (block : Bool) (outcome : Except String Unit) :
    Eff Nat :=
  if connAssert st = false then
    ⟨st, .error (.assertionError
      "S3 connection not established. Please use connect(bucket_name)."), []⟩
  else
    let bn := st.bucket_name.getD ""
    match outcome with
    | .ok _ =>
        ⟨st, .ok (st.s3_instance.getD 0),
         [.net (.putPublicAccessBlock bn block),
          .log ("Public access " ++ (if block then "blocked" else "allowed")
            ++ " for bucket '" ++ bn ++ "'.") "success"]⟩
    | .error code =>
        ⟨st, .error (.clientError code),
         [.net (.putPublicAccessBlock bn block),
          .log ("An error occurred: " ++ code) "error"]⟩

/-! ## Temporary credentials (STS) -/

/-- The `Credentials` object of a successful `get_session_token` response. -/
structure StsCredentials where
  AccessKeyId : String
  SecretAccessKey : String
  SessionToken : String
deriving Repr, DecidableEq

/-- `S3Connection.get_sts_token` (cloudspark/s3_connect.py, lines 276-304):
one `get_session_token` call; on success return the credential triple, on any
exception log it at error severity and re-raise it unchanged. -/
def get_sts_token (AccessKey SecretKey : String) (DurationSeconds : Nat)
    (outcome : Except String StsCredentials) :
    Except Err (String × String × String) × List Ev :=
  match outcome with
  | .ok credentials =>
      (.ok (credentials.AccessKeyId, credentials.SecretAccessKey,
        credentials.SessionToken),
       [.net (.stsGetSessionToken DurationSeconds)])
  | .error e =>
      (.error (.exc e),
       [.net (.stsGetSessionToken DurationSeconds),
        .log ("An error occurred: " ++ e) "error"])

/-! ## Presigned URLs -/

/-- Python dict assignment `d[k] = v` on an insertion-ordered association
list: overwrite in place if the key exists, else append. -/
def dinsert (d : List (String × String)) (k v : String) : List (String × String) :=
  if d.any (fun p => p.1 = k) then d.map (fun p => if p.1 = k then (k, v) else p)
  else d ++ [(k, v)]

/-- Python dict lookup `d[k]` / `d.get(k)`. -/
def dlookup (k : String) (d : List (String × String)) : Option String :=
  (d.find? (fun p => p.1 = k)).map (fun p => p.2)

/-- The metadata-injection loop of `presigned_create_url`
(cloudspark/s3_connect.py, lines 330-333): for every param other than
`file_name`, set the form field `x-amz-meta-<key>` and append the matching
condition dict. -/
def inject_params (params : List (String × String)) (fields : List (String × String))
    (conditions : List (List (String × String))) :
    List (String × String) × List (List (String × String)) :=
  params.foldl (fun fc kv =>
    if kv.1 ≠ "file_name" then
      (dinsert fc.1 ("x-amz-meta-" ++ kv.1) kv.2,
       fc.2 ++ [[("x-amz-meta-" ++ kv.1, kv.2)]])
    else fc) (fields, conditions)

/-- The Presigned Request Descriptor produced by a create-URL call. -/
structure PresignedPost where
  url : String
  fields : Option (List (String × String))
  conditions : Option (List (List (String × String)))
  expiration : Nat
deriving Repr, DecidableEq

/-- Modelled from the spec: `generate_presigned_post` is boto3 SDK code, not
part of this repository.  Per the spec, the call produces an ephemeral
descriptor `{url, fields, conditions, expiration}` for the bucket and key,
echoing the supplied form fields, conditions, and expiration; the URL is a
deterministic function of the bucket. -/
def generate_presigned_post (bucket key : String)
    (fields : Option (List (String × String)))
    (conditions : Option (List (List (String × String)))) (expiresIn : Nat) :
    PresignedPost :=
  { url := "https://" ++ bucket ++ ".s3.amazonaws.com/"
    fields := fields
    conditions := conditions
    expiration := expiresIn }

/-- Modelled from the spec: `generate_presigned_url` is boto3 SDK code, not
part of this repository.  Per the spec it yields a single-purpose,
time-bounded URL scoped to one HTTP verb and one object key; modelled as a
deterministic function of its inputs. -/
def generate_presigned_url (client_method bucket key : String) (expiresIn : Nat) :
    String :=
  "https://" ++ bucket ++ ".s3.amazonaws.com/" ++ key ++ "?method=" ++ client_method
    ++ "&expires=" ++ String.mk (natToDigits expiresIn)

/-- `S3Connection.presigned_create_url` (cloudspark/s3_connect.py,
lines 306-346): assert the connection; if `params` is truthy, default absent
`fields`/`conditions` and run the metadata-injection loop; generate the
presigned POST (a local signing computation) and return the descriptor (the
source JSON-serializes it with `json.dumps`). -/
def presigned_create_url (st : FacadeState) (object_name : String)
    (params : Option (List (String × String)))
    (fields : Option (List (String × String)))
    (conditions : Option (List (List (String × String))))
    (expiration : Nat) : Eff PresignedPost :=
  if connAssert st = false then
    ⟨st, .error (.assertionError
      "S3 connection not established. Please use connect(bucket_name)."), []⟩
  else
    let paramsTruthy : Bool := match params with | some ps => !ps.isEmpty | none => false
    let fc : Option (List (String × String)) × Option (List (List (String × String))) :=
      if paramsTruthy then
        let fields0 := fields.getD []
        let conditions0 := conditions.getD []
        let fc2 := inject_params (params.getD []) fields0 conditions0
        (some fc2.1, some fc2.2)
      else (fields, conditions)
    let bn := st.bucket_name.getD ""
    let response := generate_presigned_post bn object_name fc.1 fc.2 expiration
    ⟨st, .ok response, []⟩

/-- `S3Connection.presigned_delete_url` (cloudspark/s3_connect.py,
lines 348-370). -/
def presigned_delete_url (st : FacadeState) (object_name : String)
    (expiration : Nat) : Eff String :=
  if connAssert st = false then
    ⟨st, .error (.assertionError
      "S3 connection not established. Please use connect(bucket_name)."), []⟩
  else
    ⟨st, .ok (generate_presigned_url "delete_object" (st.bucket_name.getD "")
      object_name expiration), []⟩

/-- `S3Connection.presigned_get_url` (cloudspark/s3_connect.py,
lines 372-391). -/
def presigned_get_url (st : FacadeState) (object_name : String)
    (expiration : Nat) : Eff String :=
  if connAssert st = false then
    ⟨st, .error (.assertionError
      "S3 connection not established. Please use connect(bucket_name)."), []⟩
  else
    ⟨st, .ok (generate_presigned_url "get_object" (st.bucket_name.getD "")
      object_name expiration), []⟩

/-- `S3Connection.policy_decode` (cloudspark/s3_connect.py, lines 393-408):
no connection assertion, no upstream call; decode errors propagate. -/
def policy_decode (st : FacadeState) (policy_encoded : String) : Eff (List Char) :=
  match policy_decode_core policy_encoded.data with
  | .ok out => ⟨st, .ok out, []⟩
  | .error e => ⟨st, .error (.decodeError e), []⟩

/-! ## Object operations -/

/-- `S3Connection.upload_object` (cloudspark/s3_connect.py, lines 410-426). -/
def upload_object (st : FacadeState) (file : List Nat) (key_name : String)
    (outcome : Except String Unit) : Eff Unit :=
  if connAssert st = false then
    ⟨st, .error (.assertionError
      "S3 connection not established. Please use s3_connect(bucket_name)."), []⟩
  else
    let bn := st.bucket_name.getD ""
    match outcome with
    | .ok _ =>
        ⟨st, .ok (),
         [.net (.putObject bn key_name),
          .log ("File '" ++ key_name ++ "' successfully uploaded to bucket '"
            ++ bn ++ "'.") "success"]⟩
    | .error code =>
        ⟨st, .error (.clientError code),
         [.net (.putObject bn key_name),
          .log ("Error uploading file '" ++ key_name ++ "': " ++ code) "error"]⟩

/-- `S3Connection.get_object` (cloudspark/s3_connect.py, lines 428-442). -/
def get_object (st : FacadeState) (key_name : String)
    (outcome : Except String JVal) : Eff JVal :=
  if connAssert st = false then
    ⟨st, .error (.assertionError
      "S3 connection not established. Please use s3_connect(bucket_name)."), []⟩
  else
    let bn := st.bucket_name.getD ""
    match outcome with
    | .ok resp => ⟨st, .ok resp, [.net (.getObject bn key_name)]⟩
    | .error code =>
        ⟨st, .error (.clientError code),
         [.net (.getObject bn key_name), .log ("An error occurred: " ++ code) "error"]⟩

/-- `S3Connection.head_object` (cloudspark/s3_connect.py, lines 444-458). -/
def head_object (st : FacadeState) (key_name : String)
    (outcome : Except String JVal) : Eff JVal :=
  if connAssert st = false then
    ⟨st, .error (.assertionError
      "S3 connection not established. Please use s3_connect(bucket_name)."), []⟩
  else
    let bn := st.bucket_name.getD ""
    match outcome with
    | .ok resp => ⟨st, .ok resp, [.net (.headObject bn key_name)]⟩
    | .error code =>
        ⟨st, .error (.clientError code),
         [.net (.headObject bn key_name), .log ("An error occurred: " ++ code) "error"]⟩

/-- `S3Connection.delete_object` (cloudspark/s3_connect.py, lines 460-474). -/
def delete_object (st : FacadeState) (key_name : String)
    (outcome : Except String Unit) : Eff Unit :=
  if connAssert st = false then
    ⟨st, .error (.assertionError
      "S3 connection not established. Please use s3_connect(bucket_name)."), []⟩
  else
    let bn := st.bucket_name.getD ""
    match outcome with
    | .ok _ =>
        ⟨st, .ok (),
         [.net (.deleteObject bn key_name),
          .log ("Successfully deleted '" ++ key_name ++ "' from bucket '"
            ++ bn ++ "'") "success"]⟩
    | .error code =>
        ⟨st, .error (.clientError code),
         [.net (.deleteObject bn key_name), .log ("An error occurred: " ++ code) "error"]⟩

/-- One entry of a `list_objects_v2` `Contents` array (only the `Key` field is
inspected by the code; the rest of the metadata is opaque to it). -/
structure SObj where
  Key : String
  etag : String
deriving Repr, DecidableEq

/-- A `list_objects_v2` response: `contents = none` models a response without
a `Contents` key (empty bucket); `some l` models `Contents: l`. -/
structure SResp where
  contents : Option (List SObj)
deriving Repr, DecidableEq

/-- An element of the value returned by the object-listing operation. -/
inductive Entry where
  | obj (o : SObj)
  | key (k : String)
deriving Repr, DecidableEq

/-- Return value of the object-listing operation: a Python list (of object
dicts or key strings), or the raw full response. -/
inductive ListResult where
  | entries (l : List Entry)
  | full (r : SResp)
deriving Repr, DecidableEq

/-- `S3Connection.get_objects` (cloudspark/s3_connect.py, lines 476-501):
one unpaginated `list_objects_v2` call; an absent `Contents` key yields `[]`;
otherwise the objects, the keys, or the raw response depending on the flags. -/
def get_objects (st : FacadeState) (resp : SResp) (only_objects only_keys : Bool) :
    Eff ListResult :=
  if connAssert st = false then
    ⟨st, .error (.assertionError
      "S3 connection not established. Please use s3_connect(bucket_name)."), []⟩
  else
    let bn := st.bucket_name.getD ""
    let evs : List Ev := [.net (.listObjectsV2 bn)]
    match resp.contents with
    | none => ⟨st, .ok (.entries []), evs⟩
    | some contents =>
      if only_objects then ⟨st, .ok (.entries (contents.map Entry.obj)), evs⟩
      else if only_keys then
        ⟨st, .ok (.entries (contents.map (fun o => Entry.key o.Key))), evs⟩
      else ⟨st, .ok (.full resp), evs⟩

/-! ## The `app` package variants cited by the claims

app/s3_connect.py is a near-identical second copy of the facade; the
definitions below embed the methods of that copy which a claim cites and
whose behavior is not literally the shared one above. -/

/-- `S3Connection.s3_connect` (app/s3_connect.py, lines 25-41): same control
flow as `connect`, without the signing `Config` on the client construction. -/
def app_s3_connect (st0 : FacadeState) (bucket_name : Option String) : Eff Nat :=
  let e1 : FacadeState × List Ev :=
    match st0.session with
    | none => ((session_connect st0).st, (session_connect st0).evs)
    | some _ => (st0, [])
  let st1 := e1.1
  let e2 : FacadeState × Nat × List Ev :=
    match st1.s3_instance with
    | none =>
        ({ st1 with s3_instance := some st1.nextId, nextId := st1.nextId + 1 },
         st1.nextId, [.newClient])
    | some c => (st1, c, [])
  let st2 := e2.1
  let st3 :=
    match bucket_name with
    | some bn => if bn = "" then st2 else { st2 with bucket_name := some bn }
    | none => st2
  ⟨st3, .ok e2.2.1, e1.2 ++ e2.2.2⟩

/-- `S3Connection.create_s3bucket` (app/s3_connect.py, lines 43-72): same
logic as the cloudspark variant, connecting through `s3_connect`. -/
def app_create_s3bucket (w : World) (st : FacadeState) (bucket_name : String) :
    World × Eff Nat :=
  match st.s3_instance with
  | none =>
      (w, ⟨st, .error (.assertionError
        "S3 connection not established. Please use s3_connect()."), []⟩)
  | some _ =>
    match head_bucket w bucket_name with
    | .ok _ =>
        let e := app_s3_connect st (some bucket_name)
        (w, ⟨e.st, e.res,
          .net (.headBucket bucket_name)
            :: .log ("Bucket '" ++ bucket_name ++ "' already exists.") "error"
            :: e.evs⟩)
    | .error error_code =>
      if error_code = "404" then
        let loc := if st.region_name = "us-east-1" then none else some st.region_name
        let w2 : World := ⟨w.buckets ++ [bucket_name]⟩
        let e := app_s3_connect st (some bucket_name)
        (w2, ⟨e.st, e.res,
          .net (.headBucket bucket_name)
            :: .net (.createBucket bucket_name loc)
            :: .log ("Bucket '" ++ bucket_name ++ "' created successfully.") "success"
            :: e.evs⟩)
      else
        (w, ⟨st, .error (.clientError error_code),
          [.net (.headBucket bucket_name),
           .log ("An error occurred: " ++ error_code) "error"]⟩)

/-- `S3Connection.list_user_policies` (app/s3_connect.py, lines 218-227):
no assertion at all; `self._session.client('iam')` on a `None` session raises
`AttributeError` before any upstream call. -/
def app_list_user_policies (st : FacadeState) (UserName : String)
    (outcome : Except String JVal) : Eff JVal :=
  match st.session with
  | none => ⟨st, .error .attributeErrorNone, []⟩
  | some _ =>
    match outcome with
    | .ok resp => ⟨st, .ok resp, [.net (.iamListUserPolicies UserName)]⟩
    | .error code =>
        ⟨st, .error (.clientError code), [.net (.iamListUserPolicies UserName)]⟩

/-- `S3Connection.get_s3_bucket_objects` (app/s3_connect.py, lines 191-216):
literally the same body as `get_objects` of the cloudspark variant. -/
def app_get_s3_bucket_objects (st : FacadeState) (resp : SResp)
    (only_objects only_keys : Bool) : Eff ListResult :=
  if connAssert st = false then
    ⟨st, .error (.assertionError
      "S3 connection not established. Please use s3_connect(bucket_name)."), []⟩
  else
    let bn := st.bucket_name.getD ""
    let evs : List Ev := [.net (.listObjectsV2 bn)]
    match resp.contents with
    | none => ⟨st, .ok (.entries []), evs⟩
    | some contents =>
      if only_objects then ⟨st, .ok (.entries (contents.map Entry.obj)), evs⟩
      else if only_keys then
        ⟨st, .ok (.entries (contents.map (fun o => Entry.key o.Key))), evs⟩
      else ⟨st, .ok (.full resp), evs⟩

/-! ## Aliasing view of `presigned_create_url`

The claims about in-place mutation of the caller's `fields`/`conditions`
containers need object identity, so this view runs the same method body over
an explicit store: container references are indices into `PHeap`, and a
caller-supplied argument is a reference into that store. -/

/-- Store of caller-visible containers: `fstore` holds `fields` dicts,
`cstore` holds `conditions` lists. -/
structure PHeap where
  fstore : List (List (String × String))
  cstore : List (List (List (String × String)))
deriving Repr, DecidableEq

/-- `S3Connection.presigned_create_url` over the explicit store.  Returns the
updated store, the references holding the final `fields` and `conditions`
(the caller's own references whenever the caller supplied containers), and
the call result.  `fields = fields if isinstance(fields, dict) else {}` keeps
the caller's reference when a dict was passed and allocates a fresh empty
container otherwise; the injection loop then mutates through that
reference. -/
def presigned_create_url_heap (st : FacadeState) (object_name : String)
    (params : Option (List (String × String)))
    (fieldsRef condsRef : Option Nat) (expiration : Nat) (h : PHeap) :
    PHeap × Option Nat × Option Nat × Except Err PresignedPost :=
  if connAssert st = false then
    (h, fieldsRef, condsRef, .error (.assertionError
      "S3 connection not established. Please use connect(bucket_name)."))
  else
    let paramsTruthy : Bool := match params with | some ps => !ps.isEmpty | none => false
    if paramsTruthy then
      let fAlloc : Nat × PHeap :=
        match fieldsRef with
        | some r =>
            if r < h.fstore.length then (r, h)
            else (h.fstore.length, { h with fstore := h.fstore ++ [[]] })
        | none => (h.fstore.length, { h with fstore := h.fstore ++ [[]] })
      let fr := fAlloc.1
      let h1 := fAlloc.2
      let cAlloc : Nat × PHeap :=
        match condsRef with
        | some r =>
            if r < h1.cstore.length then (r, h1)
            else (h1.cstore.length, { h1 with cstore := h1.cstore ++ [[]] })
        | none => (h1.cstore.length, { h1 with cstore := h1.cstore ++ [[]] })
      let cr := cAlloc.1
      let h2 := cAlloc.2
      let fc := inject_params (params.getD []) (h2.fstore.getD fr [])
        (h2.cstore.getD cr [])
      let h3 : PHeap := { fstore := h2.fstore.set fr fc.1, cstore := h2.cstore.set cr fc.2 }
      let bn := st.bucket_name.getD ""
      (h3, some fr, some cr,
        .ok (generate_presigned_post bn object_name (some fc.1) (some fc.2) expiration))
    else
      let bn := st.bucket_name.getD ""
      (h, fieldsRef, condsRef,
        .ok (generate_presigned_post bn object_name
          (fieldsRef.map (fun r => h.fstore.getD r []))
          (condsRef.map (fun r => h.cstore.getD r [])) expiration))

/-! ## The operation machine

One inductive of every public method of the cloudspark facade, with the
environment's response (where the method contacts an upstream service)
carried inside the operation, so that a sequence of operations describes an
arbitrary interaction history with arbitrary upstream behavior. -/

/-- Return value of a facade call. -/
inductive RetVal where
  | client (c : Nat)
  | sessionv (s : Nat)
  | jsonv (j : JVal)
  | strv (s : String)
  | chars (cs : List Char)
  | post (p : PresignedPost)
  | creds (t : String × String × String)
  | listing (r : ListResult)
  | unitv
deriving Repr

/-- One call to a method of the cloudspark `S3Connection` facade, with its
arguments and (where applicable) the upstream outcome. -/
inductive Op where
  | session_connect
  | connect (bucket_name : Option String)
  | get_instance
  | create_s3bucket (bucket_name : String)
  | set_bucket_cors (CORSRules : Option (List JVal)) (outcome : Except String Unit)
  | get_bucket_cors (outcome : Except String JVal)
  | delete_bucket_cors (outcome : Except String Unit)
  | set_bucket_policy (bucket_policy : Option (Sum String JVal))
      (outcome : Except String Unit)
  | delete_bucket_policy (outcome : Except String Unit)
  | get_bucket_policy (outcome : Except String JVal)
  | list_user_policies (UserName : String) (outcome : Except String JVal)
  | public_access (block : Bool) (outcome : Except String Unit)
  | get_sts_token (AccessKey SecretKey : String) (DurationSeconds : Nat)
      (outcome : Except String StsCredentials)
  | presigned_create_url (object_name : String)
      (params fields : Option (List (String × String)))
      (conditions : Option (List (List (String × String)))) (expiration : Nat)
  | presigned_delete_url (object_name : String) (expiration : Nat)
  | presigned_get_url (object_name : String) (expiration : Nat)
  | policy_decode (policy_encoded : String)
  | upload_object (file : List Nat) (key_name : String) (outcome : Except String Unit)
  | get_object (key_name : String) (outcome : Except String JVal)
  | head_object (key_name : String) (outcome : Except String JVal)
  | delete_object (key_name : String) (outcome : Except String Unit)
  | get_objects (resp : SResp) (only_objects only_keys : Bool)

/-- Dispatch one operation to the corresponding method. -/
def runOp (op : Op) (w : World) (st : FacadeState) :
    World × FacadeState × Except Err RetVal × List Ev :=
  match op with
  | .session_connect =>
      let e := session_connect st
      (w, e.st, e.res.map RetVal.sessionv, e.evs)
  | .connect bn =>
      let e := connect st bn
      (w, e.st, e.res.map RetVal.client, e.evs)
  | .get_instance =>
      let e := get_instance st
      (w, e.st, e.res.map RetVal.client, e.evs)
  | .create_s3bucket bn =>
      let we := create_s3bucket w st bn
      (we.1, we.2.st, we.2.res.map RetVal.client, we.2.evs)
  | .set_bucket_cors rules outcome =>
      let e := set_bucket_cors st rules outcome
      (w, e.st, e.res.map RetVal.client, e.evs)
  | .get_bucket_cors outcome =>
      let e := get_bucket_cors st outcome
      (w, e.st, e.res.map RetVal.jsonv, e.evs)
  | .delete_bucket_cors outcome =>
      let e := delete_bucket_cors st outcome
      (w, e.st, e.res.map RetVal.client, e.evs)
  | .set_bucket_policy bp outcome =>
      let e := set_bucket_policy st bp outcome
      (w, e.st, e.res.map RetVal.client, e.evs)
  | .delete_bucket_policy outcome =>
      let e := delete_bucket_policy st outcome
      (w, e.st, e.res.map RetVal.client, e.evs)
  | .get_bucket_policy outcome =>
      let e := get_bucket_policy st outcome
      (w, e.st, e.res.map RetVal.jsonv, e.evs)
  | .list_user_policies u outcome =>
      let e := list_user_policies st u outcome
      (w, e.st, e.res.map RetVal.jsonv, e.evs)
  | .public_access b outcome =>
      let e := public_access st b outcome
      (w, e.st, e.res.map RetVal.client, e.evs)
  | .get_sts_token ak sk dur outcome =>
      let r := get_sts_token ak sk dur outcome
      (w, st, r.1.map RetVal.creds, r.2)
  | .presigned_create_url objn ps fs cs exp =>
      let e := presigned_create_url st objn ps fs cs exp
      (w, e.st, e.res.map RetVal.post, e.evs)
  | .presigned_delete_url objn exp =>
      let e := presigned_delete_url st objn exp
      (w, e.st, e.res.map RetVal.strv, e.evs)
  | .presigned_get_url objn exp =>
      let e := presigned_get_url st objn exp
      (w, e.st, e.res.map RetVal.strv, e.evs)
  | .policy_decode s =>
      let e := policy_decode st s
      (w, e.st, e.res.map RetVal.chars, e.evs)
  | .upload_object f k outcome =>
      let e := upload_object st f k outcome
      (w, e.st, e.res.map (fun _ => RetVal.unitv), e.evs)
  | .get_object k outcome =>
      let e := get_object st k outcome
      (w, e.st, e.res.map RetVal.jsonv, e.evs)
  | .head_object k outcome =>
      let e := head_object st k outcome
      (w, e.st, e.res.map RetVal.jsonv, e.evs)
  | .delete_object k outcome =>
      let e := delete_object st k outcome
      (w, e.st, e.res.map (fun _ => RetVal.unitv), e.evs)
  | .get_objects resp oo ok2 =>
      let e := get_objects st resp oo ok2
      (w, e.st, e.res.map RetVal.listing, e.evs)

/-- Run a sequence of operations, accumulating the event trace. -/
def runOps (ops : List Op) (w : World) (st : FacadeState) :
    World × FacadeState × List Ev :=
  match ops with
  | [] => (w, st, [])
  | op :: rest =>
    let r := runOp op w st
    let r2 := runOps rest r.1 r.2.1
    (r2.1, r2.2.1, r.2.2.2 ++ r2.2.2)

/-! ## Claim theorems -/

/-- A connected facade state used by counterexamples and witnesses: session
and client constructed, bucket "old" remembered. -/
def exConnected : FacadeState :=
  { access_key := "AK"
    secret_access_key := "SK"
    region_name := "us-east-1"
    session := some 0
    s3_instance := some 1
    bucket_name := some "old"
    nextId := 2 }

/-- C3 counterexample: the claim says `connect(bucketName)` overwrites the
remembered bucket for every string, including the empty string; but
`if bucket_name:` skips the falsy empty string, so `connect("")` on a facade
remembering "old" leaves "old" in place instead of overwriting to "". -/
theorem C3_counterexample :
    (connect exConnected (some "")).st.bucket_name = some "old" ∧
    some "old" ≠ (some "" : Option String) := by
  exact ⟨rfl, by decide⟩

/-- C3 (amended): `connect(bucketName)` (and `s3_connect` of the app variant)
overwrites the remembered bucket to exactly `bucketName`, unconditionally and
without validation, for every non-empty `bucketName`; the empty string is
falsy in Python, so `connect("")` leaves the previously remembered bucket
unchanged. -/
theorem C3_connect_overwrites_bucket (st : FacadeState) (bn : String) (h : bn ≠ "") :
    (connect st (some bn)).st.bucket_name = some bn ∧
    (app_s3_connect st (some bn)).st.bucket_name = some bn ∧
    (connect st (some "")).st.bucket_name = st.bucket_name ∧
    (app_s3_connect st (some "")).st.bucket_name = st.bucket_name := by
  cases hs : st.session <;> cases hc : st.s3_instance <;>
    simp [connect, app_s3_connect, session_connect, hs, hc, h]

/-- C3 witness: the amended theorem applied at a concrete state and bucket
name. -/
theorem C3_witness :
    ("newbucket" : String) ≠ "" ∧
    ((connect exConnected (some "newbucket")).st.bucket_name = some "newbucket" ∧
     (app_s3_connect exConnected (some "newbucket")).st.bucket_name = some "newbucket" ∧
     (connect exConnected (some "")).st.bucket_name = exConnected.bucket_name ∧
     (app_s3_connect exConnected (some "")).st.bucket_name = exConnected.bucket_name) :=
  ⟨by decide, C3_connect_overwrites_bucket exConnected "newbucket" (by decide)⟩

/-- C10: on a connected facade, when the listing response has no `Contents`
key (empty bucket), the object-listing operation returns the empty list for
every combination of the `only_objects`/`only_keys` flags, and in particular
never returns the raw full response; this holds for both `get_objects`
(cloudspark) and `get_s3_bucket_objects` (app). -/
theorem C10_empty_listing (st : FacadeState) (resp : SResp)
    (hconn : connAssert st = true) (hempty : resp.contents = none)
    (only_objects only_keys : Bool) :
    (get_objects st resp only_objects only_keys).res = .ok (.entries []) ∧
    (app_get_s3_bucket_objects st resp only_objects only_keys).res
      = .ok (.entries []) ∧
    (∀ r, (get_objects st resp only_objects only_keys).res ≠ .ok (.full r)) ∧
    (∀ r, (app_get_s3_bucket_objects st resp only_objects only_keys).res
      ≠ .ok (.full r)) := by
  refine ⟨?_, ?_, ?_, ?_⟩ <;>
    simp [get_objects, app_get_s3_bucket_objects, hconn, hempty]

/-- C10 witness: the theorem applied on a connected state with an empty
response and both flags false (the case in which the raw response would
otherwise be returned). -/
theorem C10_witness :
    connAssert exConnected = true ∧ (SResp.mk none).contents = none ∧
    ((get_objects exConnected ⟨none⟩ false false).res = .ok (.entries []) ∧
     (app_get_s3_bucket_objects exConnected ⟨none⟩ false false).res
       = .ok (.entries []) ∧
     (∀ r, (get_objects exConnected ⟨none⟩ false false).res ≠ .ok (.full r)) ∧
     (∀ r, (app_get_s3_bucket_objects exConnected ⟨none⟩ false false).res
       ≠ .ok (.full r))) :=
  ⟨by decide, rfl, C10_empty_listing exConnected ⟨none⟩ (by decide) rfl false false⟩

/-- C9: `get_sts_token` performs exactly one upstream token-exchange call;
when that call fails, the failure is logged at error severity and the very
same exception is re-raised (no retry, no backoff — the trace holds a single
upstream call); on success the call returns exactly the
`(AccessKeyId, SecretAccessKey, SessionToken)` triple of the response's
`Credentials`. -/
theorem C9_get_sts_token (AccessKey SecretKey : String) (DurationSeconds : Nat) :
    (∀ e,
      (get_sts_token AccessKey SecretKey DurationSeconds (.error e)).1
        = .error (.exc e) ∧
      (get_sts_token AccessKey SecretKey DurationSeconds (.error e)).2
        = [.net (.stsGetSessionToken DurationSeconds),
           .log ("An error occurred: " ++ e) "error"] ∧
      netCalls (get_sts_token AccessKey SecretKey DurationSeconds (.error e)).2
        = [.stsGetSessionToken DurationSeconds]) ∧
    (∀ credentials,
      (get_sts_token AccessKey SecretKey DurationSeconds (.ok credentials)).1
        = .ok (credentials.AccessKeyId, credentials.SecretAccessKey,
            credentials.SessionToken) ∧
      netCalls (get_sts_token AccessKey SecretKey DurationSeconds (.ok credentials)).2
        = [.stsGetSessionToken DurationSeconds]) := by
  refine ⟨fun e => ⟨rfl, rfl, rfl⟩, fun credentials => ⟨rfl, rfl⟩⟩

/-- C7: `policy_decode` is a right-inverse of base64-plus-JSON encoding: for
every dictionary in the modelled (printable-ASCII) value universe, decoding
the base64 encoding of its JSON serialization succeeds, and the returned
indented rendering parses back to the original dictionary once formatting
whitespace is removed. -/
theorem C7_policy_decode_right_inverse (st : FacadeState)
    (ms : List (List Char × JVal)) (h : jwf (.jobj ms) = true) :
    (policy_decode st (String.mk (b64encode (strBytes (sser (.jobj ms)))))).res
      = .ok (iser 0 (.jobj ms)) ∧
    loads (stripWs (iser 0 (.jobj ms))) = some (.jobj ms) := by
  have hrt := policy_decode_core_roundtrip (.jobj ms) h
  constructor
  · unfold policy_decode
    rw [show (String.mk (b64encode (strBytes (sser (JVal.jobj ms))))).data
        = b64encode (strBytes (sser (JVal.jobj ms))) from rfl]
    rw [hrt.1]
  · exact hrt.2

/-- C7 witness: the theorem applied to the dictionary `{"a": 1}`; its
serialization base64-encodes to "eyJhIjoxfQ==". -/
theorem C7_witness :
    jwf (.jobj [("a".data, .jint 1)]) = true ∧
    ((policy_decode exConnected (String.mk (b64encode (strBytes
        (sser (.jobj [("a".data, .jint 1)])))))).res
      = .ok (iser 0 (.jobj [("a".data, .jint 1)])) ∧
     loads (stripWs (iser 0 (.jobj [("a".data, .jint 1)])))
      = some (.jobj [("a".data, .jint 1)])) :=
  ⟨by decide, C7_policy_decode_right_inverse exConnected [("a".data, .jint 1)] (by decide)⟩

/-- C5: every successful `presigned_create_url` call returns the presigned
request descriptor holding the URL, the (possibly metadata-augmented) form
fields, and exactly the expiration value that was passed.  The upstream
`generate_presigned_post` is modelled from the spec (it is SDK code); the
repository code passes the augmented fields and the expiration through to it
unchanged and returns its response unchanged. -/
theorem C5_presigned_create_descriptor (st : FacadeState) (object_name : String)
    (params fields : Option (List (String × String)))
    (conditions : Option (List (List (String × String)))) (expiration : Nat)
    (bn : String) (hb : st.bucket_name = some bn) (hbne : bn ≠ "")
    (hc : st.s3_instance.isSome = true) :
    (presigned_create_url st object_name params fields conditions expiration).res
      = .ok
        { url := "https://" ++ bn ++ ".s3.amazonaws.com/"
          fields :=
            if (match params with | some ps => !ps.isEmpty | none => false) then
              some (inject_params (params.getD []) (fields.getD [])
                (conditions.getD [])).1
            else fields
          conditions :=
            if (match params with | some ps => !ps.isEmpty | none => false) then
              some (inject_params (params.getD []) (fields.getD [])
                (conditions.getD [])).2
            else conditions
          expiration := expiration } := by
  have hca : connAssert st = true := by
    simp [connAssert, hb, bucketTruthy, hc, hbne]
  unfold presigned_create_url
  rw [hca]
  cases params with
  | none =>
    simp [generate_presigned_post, hb]
  | some ps =>
    cases hps : ps.isEmpty
    · simp [generate_presigned_post, hb, hps]
    · simp [generate_presigned_post, hb, hps]

/-- C5 witness: the theorem applied on a connected state with the
metadata-bearing example parameters. -/
theorem C5_witness :
    exConnected.bucket_name = some "old" ∧ ("old" : String) ≠ "" ∧
    exConnected.s3_instance.isSome = true ∧
    (presigned_create_url exConnected "obj.txt"
        (some [("owner", "alice"), ("file_name", "x")]) none none 3600).res
      = .ok
        { url := "https://old.s3.amazonaws.com/"
          fields :=
            if (match (some [("owner", "alice"), ("file_name", "x")]
                : Option (List (String × String))) with
                | some ps => !ps.isEmpty | none => false) then
              some (inject_params ((some [("owner", "alice"), ("file_name", "x")]
                : Option (List (String × String))).getD [])
                ((none : Option (List (String × String))).getD [])
                ((none : Option (List (List (String × String)))).getD [])).1
            else none
          conditions :=
            if (match (some [("owner", "alice"), ("file_name", "x")]
                : Option (List (String × String))) with
                | some ps => !ps.isEmpty | none => false) then
              some (inject_params ((some [("owner", "alice"), ("file_name", "x")]
                : Option (List (String × String))).getD [])
                ((none : Option (List (String × String))).getD [])
                ((none : Option (List (List (String × String)))).getD [])).2
            else none
          expiration := 3600 } :=
  ⟨rfl, by decide, rfl,
    C5_presigned_create_descriptor exConnected "obj.txt"
      (some [("owner", "alice"), ("file_name", "x")]) none none 3600 "old"
      rfl (by decide) rfl⟩

/-! ### Dictionary lemmas for the metadata-injection claim -/

theorem dlookup_nil (k : String) : dlookup k [] = none := rfl

theorem dlookup_cons (k2 : String) (p : String × String) (l : List (String × String)) :
    dlookup k2 (p :: l) = if p.1 = k2 then some p.2 else dlookup k2 l := by
  by_cases hp : p.1 = k2
  · simp [dlookup, List.find?, hp]
  · simp [dlookup, List.find?, hp]

theorem dlookup_map_overwrite (d : List (String × String)) (k v k2 : String)
    (h : k2 ≠ k) :
    dlookup k2 (d.map (fun p => if p.1 = k then (k, v) else p)) = dlookup k2 d := by
  induction d with
  | nil => rfl
  | cons p ps ih =>
    by_cases hp : p.1 = k
    · simp only [List.map_cons, if_pos hp]
      rw [dlookup_cons, dlookup_cons, if_neg (fun hk => h hk.symm), if_neg]
      · exact ih
      · rw [hp]
        exact fun hk => h hk.symm
    · simp only [List.map_cons, if_neg hp]
      rw [dlookup_cons, dlookup_cons]
      by_cases hp2 : p.1 = k2
      · simp [hp2]
      · rw [if_neg hp2, if_neg hp2]
        exact ih

theorem dlookup_append_single (d : List (String × String)) (k v k2 : String)
    (h : k2 ≠ k) : dlookup k2 (d ++ [(k, v)]) = dlookup k2 d := by
  induction d with
  | nil =>
    simp only [List.nil_append, dlookup_nil]
    rw [dlookup_cons, if_neg (fun hk => h hk.symm), dlookup_nil]
  | cons p ps ih =>
    rw [List.cons_append, dlookup_cons, dlookup_cons]
    by_cases hp : p.1 = k2
    · simp [hp]
    · rw [if_neg hp, if_neg hp]
      exact ih

theorem dlookup_dinsert_self (d : List (String × String)) (k v : String) :
    dlookup k (dinsert d k v) = some v := by
  unfold dinsert
  split
  · next hany =>
    induction d with
    | nil => simp at hany
    | cons p ps ih =>
      by_cases hp : p.1 = k
      · simp only [List.map_cons, if_pos hp]
        rw [dlookup_cons]
        simp
      · simp only [List.any_cons, Bool.or_eq_true, decide_eq_true_eq] at hany
        rcases hany with hany | hany
        · exact absurd hany hp
        · simp only [List.map_cons, if_neg hp]
          rw [dlookup_cons, if_neg hp]
          exact ih hany
  · next hany =>
    induction d with
    | nil =>
      simp only [List.nil_append]
      rw [dlookup_cons]
      simp
    | cons p ps ih =>
      simp only [List.any_cons, Bool.or_eq_true, decide_eq_true_eq, not_or] at hany
      rw [List.cons_append, dlookup_cons, if_neg hany.1]
      exact ih hany.2

theorem dlookup_dinsert_ne (d : List (String × String)) (k v k2 : String)
    (h : k2 ≠ k) : dlookup k2 (dinsert d k v) = dlookup k2 d := by
  unfold dinsert
  split
  · exact dlookup_map_overwrite d k v k2 h
  · exact dlookup_append_single d k v k2 h

/-- Appending `"x-amz-meta-"` is injective in the suffix. -/
theorem metaKey_inj {a b : String} (h : "x-amz-meta-" ++ a = "x-amz-meta-" ++ b) :
    a = b := by
  have hd := congrArg String.data h
  rw [String.data_append, String.data_append] at hd
  have h2 := List.append_cancel_left hd
  cases a
  cases b
  exact congrArg String.mk (by simpa using h2)

theorem inject_params_nil (f : List (String × String))
    (c : List (List (String × String))) : inject_params [] f c = (f, c) := rfl

theorem inject_params_cons (p : String × String) (ps : List (String × String))
    (f : List (String × String)) (c : List (List (String × String))) :
    inject_params (p :: ps) f c =
      if p.1 ≠ "file_name" then
        inject_params ps (dinsert f ("x-amz-meta-" ++ p.1) p.2)
          (c ++ [[("x-amz-meta-" ++ p.1, p.2)]])
      else inject_params ps f c := by
  by_cases hp : p.1 = "file_name"
  · simp [inject_params, List.foldl_cons, hp]
  · simp [inject_params, List.foldl_cons, hp]

/-- The injection loop does not disturb the binding of any field key distinct
from every injected metadata key. -/
theorem inject_params_dlookup_frame (params : List (String × String))
    (fields : List (String × String)) (conditions : List (List (String × String)))
    (K : String)
    (h : ∀ p ∈ params, p.1 ≠ "file_name" → "x-amz-meta-" ++ p.1 ≠ K) :
    dlookup K (inject_params params fields conditions).1 = dlookup K fields := by
  induction params generalizing fields conditions with
  | nil => rfl
  | cons p ps ih =>
    rw [inject_params_cons]
    by_cases hp : p.1 = "file_name"
    · rw [if_neg (by simp [hp])]
      exact ih _ _ (fun q hq => h q (by simp [hq]))
    · rw [if_pos hp]
      rw [ih _ _ (fun q hq => h q (by simp [hq]))]
      exact dlookup_dinsert_ne _ _ _ _ (fun hK => (h p (by simp) hp) hK.symm)

/-- The injection loop binds `x-amz-meta-<k>` to `params[k]` for every key
`k ≠ "file_name"` of a duplicate-free parameter dict. -/
theorem inject_params_dlookup_mem (params : List (String × String))
    (fields : List (String × String)) (conditions : List (List (String × String)))
    (hnd : (params.map Prod.fst).Nodup) (k v : String)
    (hmem : (k, v) ∈ params) (hk : k ≠ "file_name") :
    dlookup ("x-amz-meta-" ++ k) (inject_params params fields conditions).1 = some v := by
  induction params generalizing fields conditions with
  | nil => cases hmem
  | cons p ps ih =>
    have hnd2 := hnd
    simp only [List.map_cons, List.nodup_cons] at hnd2
    rw [inject_params_cons]
    rcases List.mem_cons.mp hmem with heq | hmem2
    · subst heq
      rw [if_pos hk]
      rw [inject_params_dlookup_frame _ _ _ _ (fun q hq hqfn => ?_)]
      · exact dlookup_dinsert_self _ _ _
      · intro hK
        have hq1 : q.1 = k := metaKey_inj hK
        have hmm : q.1 ∈ ps.map Prod.fst := List.mem_map_of_mem Prod.fst hq
        rw [hq1] at hmm
        exact hnd2.1 hmm
    · by_cases hp : p.1 = "file_name"
      · rw [if_neg (by simp [hp])]
        exact ih _ _ hnd2.2 hmem2
      · rw [if_pos hp]
        exact ih _ _ hnd2.2 hmem2

/-- The injection loop appends exactly one condition per non-`file_name`
param, in order, to the caller's conditions. -/
theorem inject_params_conditions (params : List (String × String))
    (fields : List (String × String)) (conditions : List (List (String × String))) :
    (inject_params params fields conditions).2
      = conditions ++ (params.filter (fun p => p.1 != "file_name")).map
          (fun p => [("x-amz-meta-" ++ p.1, p.2)]) := by
  induction params generalizing fields conditions with
  | nil => simp [inject_params_nil]
  | cons p ps ih =>
    rw [inject_params_cons]
    by_cases hp : p.1 = "file_name"
    · rw [if_neg (by simp [hp])]
      rw [ih]
      simp [List.filter_cons, hp]
    · rw [if_pos hp]
      rw [ih]
      simp [List.filter_cons, hp]

/-- C2: for every `presigned_create_url` call on a connected facade in which
`params` is supplied (non-empty): for every key `k ≠ "file_name"` of the
(duplicate-free) params dict, the resulting form fields bind
`x-amz-meta-<k>` to the literal value `params[k]` and the conditions list
contains the condition `{x-amz-meta-<k>: params[k]}`; the conditions are
exactly the caller's plus one per non-`file_name` param; and no field is
derived from the `file_name` key (the binding of `x-amz-meta-file_name` is
whatever the caller's fields already had). -/
theorem C2_metadata_injection (st : FacadeState) (object_name : String)
    (ps fields0 : List (String × String))
    (conditions0 : List (List (String × String))) (expiration : Nat) (bn : String)
    (hb : st.bucket_name = some bn) (hbne : bn ≠ "")
    (hc : st.s3_instance.isSome = true) (hne : ps ≠ [])
    (hnd : (ps.map Prod.fst).Nodup) :
    (presigned_create_url st object_name (some ps) (some fields0) (some conditions0)
        expiration).res
      = .ok { url := "https://" ++ bn ++ ".s3.amazonaws.com/"
              fields := some (inject_params ps fields0 conditions0).1
              conditions := some (inject_params ps fields0 conditions0).2
              expiration := expiration } ∧
    (∀ k v, (k, v) ∈ ps → k ≠ "file_name" →
      dlookup ("x-amz-meta-" ++ k) (inject_params ps fields0 conditions0).1 = some v ∧
      [("x-amz-meta-" ++ k, v)] ∈ (inject_params ps fields0 conditions0).2) ∧
    (inject_params ps fields0 conditions0).2
      = conditions0 ++ (ps.filter (fun p => p.1 != "file_name")).map
          (fun p => [("x-amz-meta-" ++ p.1, p.2)]) ∧
    dlookup "x-amz-meta-file_name" (inject_params ps fields0 conditions0).1
      = dlookup "x-amz-meta-file_name" fields0 := by
  have hca : connAssert st = true := by
    simp [connAssert, hb, bucketTruthy, hc, hbne]
  refine ⟨?_, ?_, inject_params_conditions ps fields0 conditions0, ?_⟩
  · unfold presigned_create_url
    rw [hca]
    simp [generate_presigned_post, hb, List.isEmpty_eq_true, hne]
  · intro k v hmem hk
    refine ⟨inject_params_dlookup_mem ps fields0 conditions0 hnd k v hmem hk, ?_⟩
    rw [inject_params_conditions ps fields0 conditions0]
    refine List.mem_append.mpr (Or.inr ?_)
    refine List.mem_map.mpr ⟨(k, v), ?_, rfl⟩
    refine List.mem_filter.mpr ⟨hmem, ?_⟩
    simpa using hk
  · refine inject_params_dlookup_frame ps fields0 conditions0 _ (fun q hq hqfn hK => ?_)
    exact hqfn (metaKey_inj hK)

/-- C2 witness: the theorem applied to the spec's example
`params = {"owner": "alice", "file_name": "x"}` on a connected facade. -/
theorem C2_witness :
    exConnected.bucket_name = some "old" ∧ ("old" : String) ≠ "" ∧
    exConnected.s3_instance.isSome = true ∧
    ([("owner", "alice"), ("file_name", "x")] : List (String × String)) ≠ [] ∧
    (([("owner", "alice"), ("file_name", "x")] : List (String × String)).map
      Prod.fst).Nodup ∧
    ((presigned_create_url exConnected "obj.txt"
        (some [("owner", "alice"), ("file_name", "x")]) (some []) (some []) 3600).res
      = .ok { url := "https://old.s3.amazonaws.com/"
              fields := some (inject_params [("owner", "alice"), ("file_name", "x")]
                [] []).1
              conditions := some (inject_params [("owner", "alice"), ("file_name", "x")]
                [] []).2
              expiration := 3600 } ∧
     (∀ k v, (k, v) ∈ ([("owner", "alice"), ("file_name", "x")]
          : List (String × String)) → k ≠ "file_name" →
       dlookup ("x-amz-meta-" ++ k)
         (inject_params [("owner", "alice"), ("file_name", "x")] [] []).1 = some v ∧
       [("x-amz-meta-" ++ k, v)]
         ∈ (inject_params [("owner", "alice"), ("file_name", "x")] [] []).2) ∧
     (inject_params [("owner", "alice"), ("file_name", "x")] [] []).2
       = [] ++ (([("owner", "alice"), ("file_name", "x")]
           : List (String × String)).filter (fun p => p.1 != "file_name")).map
             (fun p => [("x-amz-meta-" ++ p.1, p.2)]) ∧
     dlookup "x-amz-meta-file_name"
         (inject_params [("owner", "alice"), ("file_name", "x")] [] []).1
       = dlookup "x-amz-meta-file_name" []) :=
  ⟨rfl, by decide, rfl, by decide, by decide,
    C2_metadata_injection exConnected "obj.txt" [("owner", "alice"), ("file_name", "x")]
      [] [] 3600 "old" rfl (by decide) rfl (by decide) (by decide)⟩

theorem getD_set_self {α : Type} (l : List α) (i : Nat) (a d : α)
    (h : i < l.length) : (l.set i a).getD i d = a := by
  rw [List.getD_eq_getElem?_getD, List.getElem?_set_self]
  · simp
  · simpa using h

theorem getD_set_ne {α : Type} (l : List α) (i j : Nat) (a d : α) (h : j ≠ i) :
    (l.set i a).getD j d = l.getD j d := by
  rw [List.getD_eq_getElem?_getD, List.getD_eq_getElem?_getD, List.getElem?_set_ne]
  exact fun he => h he.symm

theorem getD_append_last {α : Type} (l : List α) (x d : α) :
    (l ++ [x]).getD l.length d = x := by
  rw [List.getD_eq_getElem?_getD, List.getElem?_append_right (le_refl _)]
  simp

/-- C6: when `presigned_create_url` is called with non-empty `params` and the
caller supplies a `fields` dict and a `conditions` list, those very
caller-owned containers are mutated in place: the call returns without
allocating replacements, the caller's containers afterwards hold exactly the
metadata-injected contents, and no other container is touched.  When the
caller supplies neither container, fresh ones are allocated (references past
every existing one) and every pre-existing container is left unchanged. -/
theorem C6_in_place_mutation (st : FacadeState) (object_name : String)
    (ps : List (String × String)) (expiration : Nat) (h : PHeap)
    (rf rc : Nat) (bn : String)
    (hb : st.bucket_name = some bn) (hbne : bn ≠ "")
    (hc : st.s3_instance.isSome = true) (hne : ps ≠ [])
    (hrf : rf < h.fstore.length) (hrc : rc < h.cstore.length) :
    ((presigned_create_url_heap st object_name (some ps) (some rf) (some rc)
        expiration h).2.1 = some rf ∧
     (presigned_create_url_heap st object_name (some ps) (some rf) (some rc)
        expiration h).2.2.1 = some rc ∧
     (presigned_create_url_heap st object_name (some ps) (some rf) (some rc)
        expiration h).1.fstore.getD rf []
       = (inject_params ps (h.fstore.getD rf []) (h.cstore.getD rc [])).1 ∧
     (presigned_create_url_heap st object_name (some ps) (some rf) (some rc)
        expiration h).1.cstore.getD rc []
       = (inject_params ps (h.fstore.getD rf []) (h.cstore.getD rc [])).2 ∧
     (∀ i, i ≠ rf →
       (presigned_create_url_heap st object_name (some ps) (some rf) (some rc)
          expiration h).1.fstore.getD i [] = h.fstore.getD i []) ∧
     (∀ i, i ≠ rc →
       (presigned_create_url_heap st object_name (some ps) (some rf) (some rc)
          expiration h).1.cstore.getD i [] = h.cstore.getD i [])) ∧
    ((presigned_create_url_heap st object_name (some ps) none none
        expiration h).2.1 = some h.fstore.length ∧
     (presigned_create_url_heap st object_name (some ps) none none
        expiration h).2.2.1 = some h.cstore.length ∧
     (∀ i, i < h.fstore.length →
       (presigned_create_url_heap st object_name (some ps) none none
          expiration h).1.fstore.getD i [] = h.fstore.getD i []) ∧
     (∀ i, i < h.cstore.length →
       (presigned_create_url_heap st object_name (some ps) none none
          expiration h).1.cstore.getD i [] = h.cstore.getD i [])) := by
  have hca : connAssert st = true := by
    simp [connAssert, hb, bucketTruthy, hc, hbne]
  have hpt2 : (!ps.isEmpty) = true := by
    simp [hne]
  constructor
  · unfold presigned_create_url_heap
    rw [hca]
    rw [if_neg (by decide : ¬(true = false))]
    dsimp only
    rw [if_pos hpt2, if_pos hrf, if_pos hrc]
    dsimp only
    refine ⟨rfl, rfl, ?_, ?_, ?_, ?_⟩
    · exact getD_set_self _ _ _ _ hrf
    · exact getD_set_self _ _ _ _ hrc
    · intro i hi
      exact getD_set_ne _ _ _ _ _ hi
    · intro i hi
      exact getD_set_ne _ _ _ _ _ hi
  · unfold presigned_create_url_heap
    rw [hca]
    rw [if_neg (by decide : ¬(true = false))]
    dsimp only
    rw [if_pos hpt2]
    dsimp only
    refine ⟨rfl, rfl, ?_, ?_⟩
    · intro i hi
      rw [getD_set_ne _ _ _ _ _ (by omega), List.getD_append _ _ _ _ hi]
    · intro i hi
      rw [getD_set_ne _ _ _ _ _ (by omega), List.getD_append _ _ _ _ hi]

/-- C6 witness: the theorem applied on a concrete heap holding one fields
dict and one conditions list. -/
theorem C6_witness :
    exConnected.bucket_name = some "old" ∧ ("old" : String) ≠ "" ∧
    exConnected.s3_instance.isSome = true ∧
    ([("owner", "alice")] : List (String × String)) ≠ [] ∧
    (0 : Nat) < (PHeap.mk [[("f0", "v0")]] [[]]).fstore.length ∧
    (0 : Nat) < (PHeap.mk [[("f0", "v0")]] [[]]).cstore.length ∧
    (((presigned_create_url_heap exConnected "k" (some [("owner", "alice")])
        (some 0) (some 0) 3600 ⟨[[("f0", "v0")]], [[]]⟩).2.1 = some 0 ∧
      (presigned_create_url_heap exConnected "k" (some [("owner", "alice")])
        (some 0) (some 0) 3600 ⟨[[("f0", "v0")]], [[]]⟩).2.2.1 = some 0 ∧
      (presigned_create_url_heap exConnected "k" (some [("owner", "alice")])
        (some 0) (some 0) 3600 ⟨[[("f0", "v0")]], [[]]⟩).1.fstore.getD 0 []
        = (inject_params [("owner", "alice")]
            ((PHeap.mk [[("f0", "v0")]] [[]]).fstore.getD 0 [])
            ((PHeap.mk [[("f0", "v0")]] [[]]).cstore.getD 0 [])).1 ∧
      (presigned_create_url_heap exConnected "k" (some [("owner", "alice")])
        (some 0) (some 0) 3600 ⟨[[("f0", "v0")]], [[]]⟩).1.cstore.getD 0 []
        = (inject_params [("owner", "alice")]
            ((PHeap.mk [[("f0", "v0")]] [[]]).fstore.getD 0 [])
            ((PHeap.mk [[("f0", "v0")]] [[]]).cstore.getD 0 [])).2 ∧
      (∀ i, i ≠ 0 →
        (presigned_create_url_heap exConnected "k" (some [("owner", "alice")])
          (some 0) (some 0) 3600 ⟨[[("f0", "v0")]], [[]]⟩).1.fstore.getD i []
          = (PHeap.mk [[("f0", "v0")]] [[]]).fstore.getD i []) ∧
      (∀ i, i ≠ 0 →
        (presigned_create_url_heap exConnected "k" (some [("owner", "alice")])
          (some 0) (some 0) 3600 ⟨[[("f0", "v0")]], [[]]⟩).1.cstore.getD i []
          = (PHeap.mk [[("f0", "v0")]] [[]]).cstore.getD i [])) ∧
     ((presigned_create_url_heap exConnected "k" (some [("owner", "alice")])
        none none 3600 ⟨[[("f0", "v0")]], [[]]⟩).2.1
        = some (PHeap.mk [[("f0", "v0")]] [[]]).fstore.length ∧
      (presigned_create_url_heap exConnected "k" (some [("owner", "alice")])
        none none 3600 ⟨[[("f0", "v0")]], [[]]⟩).2.2.1
        = some (PHeap.mk [[("f0", "v0")]] [[]]).cstore.length ∧
      (∀ i, i < (PHeap.mk [[("f0", "v0")]] [[]]).fstore.length →
        (presigned_create_url_heap exConnected "k" (some [("owner", "alice")])
          none none 3600 ⟨[[("f0", "v0")]], [[]]⟩).1.fstore.getD i []
          = (PHeap.mk [[("f0", "v0")]] [[]]).fstore.getD i []) ∧
      (∀ i, i < (PHeap.mk [[("f0", "v0")]] [[]]).cstore.length →
        (presigned_create_url_heap exConnected "k" (some [("owner", "alice")])
          none none 3600 ⟨[[("f0", "v0")]], [[]]⟩).1.cstore.getD i []
          = (PHeap.mk [[("f0", "v0")]] [[]]).cstore.getD i []))) :=
  ⟨rfl, by decide, rfl, by decide, by decide, by decide,
    C6_in_place_mutation exConnected "k" [("owner", "alice")] 3600
      ⟨[[("f0", "v0")]], [[]]⟩ 0 0 "old" rfl (by decide) rfl (by decide)
      (by decide) (by decide)⟩

/-- A connected facade state in a non-default region, with no remembered
bucket yet. -/
def exConnected2 : FacadeState :=
  { access_key := "AK"
    secret_access_key := "SK"
    region_name := "us-west-2"
    session := some 0
    s3_instance := some 1
    bucket_name := none
    nextId := 2 }

/-- When the bucket already exists in the world, `create_s3bucket` on a
connected facade that already remembers that bucket logs the "already
exists" message and returns the memoized client without raising. -/
theorem create_s3bucket_exists (w : World) (st : FacadeState) (bn : String)
    (c s0 : Nat) (hs : st.session = some s0) (hc : st.s3_instance = some c)
    (hb : st.bucket_name = some bn) (hbne : bn ≠ "") (hmem : bn ∈ w.buckets) :
    create_s3bucket w st bn
      = (w, ⟨st, .ok c,
          [.net (.headBucket bn),
           .log ("Bucket '" ++ bn ++ "' already exists.") "error"]⟩) := by
  have hconn : connect st (some bn) = ⟨st, .ok c, []⟩ := by
    simp only [connect, hs, hc]
    rw [if_neg hbne]
    cases st
    simp_all
  unfold create_s3bucket
  rw [hc]
  dsimp only
  rw [show head_bucket w bn = .ok () by simp [head_bucket, hmem]]
  dsimp only
  rw [hconn]

/-- C8: `create_s3bucket` called twice with the same name on a connected
facade: the first call receives a 404 from `head_bucket`, creates the bucket
with a region-conditional request shape (us-east-1 omits the location
constraint, every other region supplies it), and returns the connected
(memoized) client with the bucket remembered; the second call, for which the
bucket now exists, logs an "already exists" message, does not raise, performs
no create call, and still returns the connected client. -/
theorem C8_create_s3bucket_twice (w : World) (st : FacadeState) (bn : String)
    (c s0 : Nat) (hs : st.session = some s0) (hc : st.s3_instance = some c)
    (hbne : bn ≠ "") (habsent : bn ∉ w.buckets) :
    create_s3bucket w st bn
      = (⟨w.buckets ++ [bn]⟩,
         ⟨{ st with bucket_name := some bn }, .ok c,
          [.net (.headBucket bn),
           .net (.createBucket bn (if st.region_name = "us-east-1" then none
             else some st.region_name)),
           .log ("Bucket '" ++ bn ++ "' created successfully.") "success"]⟩) ∧
    create_s3bucket (⟨w.buckets ++ [bn]⟩ : World) { st with bucket_name := some bn } bn
      = (⟨w.buckets ++ [bn]⟩,
         ⟨{ st with bucket_name := some bn }, .ok c,
          [.net (.headBucket bn),
           .log ("Bucket '" ++ bn ++ "' already exists.") "error"]⟩) := by
  have hconn1 : connect st (some bn)
      = ⟨{ st with bucket_name := some bn }, .ok c, []⟩ := by
    simp [connect, hs, hc, hbne]
  constructor
  · unfold create_s3bucket
    rw [hc]
    dsimp only
    rw [show head_bucket w bn = .error "404" by simp [head_bucket, habsent]]
    dsimp only
    rw [if_pos rfl, hconn1]
    simp [hc]
  · exact create_s3bucket_exists ⟨w.buckets ++ [bn]⟩
      { st with bucket_name := some bn } bn c s0 hs hc rfl hbne (by simp)

/-- C8 witness: the theorem applied in a non-default region (so the first
call's create carries the location constraint) on a world not containing the
bucket. -/
theorem C8_witness :
    (exConnected2.session = some 0 ∧ exConnected2.s3_instance = some 1 ∧
     ("data-bucket" : String) ≠ "" ∧ "data-bucket" ∉ (⟨["other"]⟩ : World).buckets) ∧
    (create_s3bucket ⟨["other"]⟩ exConnected2 "data-bucket"
      = (⟨["other"] ++ ["data-bucket"]⟩,
         ⟨{ exConnected2 with bucket_name := some "data-bucket" }, .ok 1,
          [.net (.headBucket "data-bucket"),
           .net (.createBucket "data-bucket"
             (if exConnected2.region_name = "us-east-1" then none
              else some exConnected2.region_name)),
           .log ("Bucket '" ++ "data-bucket" ++ "' created successfully.")
             "success"]⟩) ∧
     create_s3bucket (⟨["other"] ++ ["data-bucket"]⟩ : World)
        { exConnected2 with bucket_name := some "data-bucket" } "data-bucket"
      = (⟨["other"] ++ ["data-bucket"]⟩,
         ⟨{ exConnected2 with bucket_name := some "data-bucket" }, .ok 1,
          [.net (.headBucket "data-bucket"),
           .log ("Bucket '" ++ "data-bucket" ++ "' already exists.") "error"]⟩)) :=
  ⟨⟨rfl, rfl, by decide, by decide⟩,
    C8_create_s3bucket_twice ⟨["other"]⟩ exConnected2 "data-bucket" 1 0 rfl rfl
      (by decide) (by decide)⟩

/-- C4 counterexample: the claim requires every operation method other than
connect / establish_session / credential issuance — explicitly including
`policy_decode` — to fail with a precondition error when invoked on a facade
on which `connect` was never called.  But `policy_decode` has no connection
check: on a fresh facade it succeeds (returning the decoded policy of
"eyJhIjoxfQ==", the base64 encoding of the JSON text of the dict
`{"a": 1}`), with zero upstream calls. -/
theorem C4_counterexample :
    (runOp (.policy_decode "eyJhIjoxfQ==") ⟨[]⟩
        (S3Connection_init "AK" "SK" "us-east-1")).2.2.1
      = .ok (RetVal.chars "\x7b\n    \"a\": 1\n\x7d".data) ∧
    netCalls (runOp (.policy_decode "eyJhIjoxfQ==") ⟨[]⟩
        (S3Connection_init "AK" "SK" "us-east-1")).2.2.2 = [] := by
  exact ⟨rfl, rfl⟩

/-- The operations quantified over by the amended claim C4's uniform
client-assert clause: every facade method except connect, establish_session,
credential issuance, `policy_decode` (no check at all) and
`list_user_policies` (checks only the session, treated separately). -/
def c4Scope : Op → Bool
  | .session_connect => false
  | .connect _ => false
  | .get_sts_token _ _ _ _ => false
  | .policy_decode _ => false
  | .list_user_policies _ _ => false
  | _ => true

/-- C4 (amended), over every facade state on which `connect` was never
called (no client exists — whether or not `establish_session` was called):
every operation method other than connect / establish_session / credential
issuance, `policy_decode` and `list_user_policies` (so get_instance,
create_s3bucket, the CORS/policy/public-access operations, the presigned-URL
operations, the object operations and the listings) fails with an
`AssertionError` before any upstream attempt, performing zero upstream
calls; `policy_decode` performs zero upstream calls but does not check the
connection; and `list_user_policies` checks only the session: with no
session the cloudspark variant fails with the `AssertionError` and the app
variant with an `AttributeError`, both with zero upstream calls, while with
a session present (established without ever calling connect) both variants
pass their check and perform the IAM call. -/
theorem C4_unconnected_precondition (op : Op) (w : World) (st : FacadeState)
    (hc : st.s3_instance = none) (hop : c4Scope op = true) :
    ((∃ msg, (runOp op w st).2.2.1 = .error (.assertionError msg)) ∧
     netCalls (runOp op w st).2.2.2 = []) ∧
    (∀ s, netCalls (runOp (.policy_decode s) w st).2.2.2 = []) ∧
    (st.session = none → ∀ u outcome,
      ((list_user_policies st u outcome).res
         = .error (.assertionError
             "S3 connection not established. Please use connect().") ∧
       netCalls (list_user_policies st u outcome).evs = []) ∧
      ((app_list_user_policies st u outcome).res = .error .attributeErrorNone ∧
       netCalls (app_list_user_policies st u outcome).evs = [])) ∧
    (∀ s0, st.session = some s0 → ∀ u outcome,
      netCalls (list_user_policies st u outcome).evs = [.iamListUserPolicies u] ∧
      (list_user_policies st u outcome).res = outcome.mapError Err.clientError ∧
      app_list_user_policies st u outcome = list_user_policies st u outcome) := by
  have hca : connAssert st = false := by simp [connAssert, hc]
  refine ⟨?_, ?_, ?_, ?_⟩
  · cases op with
    | session_connect => simp [c4Scope] at hop
    | connect bn => simp [c4Scope] at hop
    | get_sts_token a b d o => simp [c4Scope] at hop
    | policy_decode s => simp [c4Scope] at hop
    | list_user_policies u o => simp [c4Scope] at hop
    | get_instance =>
        dsimp only [runOp]
        unfold get_instance
        rw [hc]
        exact ⟨⟨_, rfl⟩, rfl⟩
    | create_s3bucket bn =>
        dsimp only [runOp]
        unfold create_s3bucket
        rw [hc]
        exact ⟨⟨_, rfl⟩, rfl⟩
    | set_bucket_cors r o =>
        dsimp only [runOp]
        unfold set_bucket_cors
        rw [if_pos hca]
        exact ⟨⟨_, rfl⟩, rfl⟩
    | get_bucket_cors o =>
        dsimp only [runOp]
        unfold get_bucket_cors
        rw [if_pos hca]
        exact ⟨⟨_, rfl⟩, rfl⟩
    | delete_bucket_cors o =>
        dsimp only [runOp]
        unfold delete_bucket_cors
        rw [if_pos hca]
        exact ⟨⟨_, rfl⟩, rfl⟩
    | set_bucket_policy b o =>
        dsimp only [runOp]
        unfold set_bucket_policy
        rw [if_pos hca]
        exact ⟨⟨_, rfl⟩, rfl⟩
    | delete_bucket_policy o =>
        dsimp only [runOp]
        unfold delete_bucket_policy
        rw [if_pos hca]
        exact ⟨⟨_, rfl⟩, rfl⟩
    | get_bucket_policy o =>
        dsimp only [runOp]
        unfold get_bucket_policy
        rw [if_pos hca]
        exact ⟨⟨_, rfl⟩, rfl⟩
    | public_access b o =>
        dsimp only [runOp]
        unfold public_access
        rw [if_pos hca]
        exact ⟨⟨_, rfl⟩, rfl⟩
    | presigned_create_url a b d e f =>
        dsimp only [runOp]
        unfold presigned_create_url
        rw [if_pos hca]
        exact ⟨⟨_, rfl⟩, rfl⟩
    | presigned_delete_url a b =>
        dsimp only [runOp]
        unfold presigned_delete_url
        rw [if_pos hca]
        exact ⟨⟨_, rfl⟩, rfl⟩
    | presigned_get_url a b =>
        dsimp only [runOp]
        unfold presigned_get_url
        rw [if_pos hca]
        exact ⟨⟨_, rfl⟩, rfl⟩
    | upload_object f k o =>
        dsimp only [runOp]
        unfold upload_object
        rw [if_pos hca]
        exact ⟨⟨_, rfl⟩, rfl⟩
    | get_object k o =>
        dsimp only [runOp]
        unfold get_object
        rw [if_pos hca]
        exact ⟨⟨_, rfl⟩, rfl⟩
    | head_object k o =>
        dsimp only [runOp]
        unfold head_object
        rw [if_pos hca]
        exact ⟨⟨_, rfl⟩, rfl⟩
    | delete_object k o =>
        dsimp only [runOp]
        unfold delete_object
        rw [if_pos hca]
        exact ⟨⟨_, rfl⟩, rfl⟩
    | get_objects r a b =>
        dsimp only [runOp]
        unfold get_objects
        rw [if_pos hca]
        exact ⟨⟨_, rfl⟩, rfl⟩
  · intro s
    dsimp only [runOp, policy_decode]
    cases policy_decode_core s.data <;> rfl
  · intro hs u outcome
    unfold list_user_policies app_list_user_policies
    rw [hs]
    exact ⟨⟨rfl, rfl⟩, rfl, rfl⟩
  · intro s0 hs u outcome
    unfold list_user_policies app_list_user_policies
    rw [hs]
    cases outcome <;> exact ⟨rfl, rfl, rfl⟩

/-- C4 witness: the amended theorem applied to `get_instance`, once on a
fresh facade and once on the facade after `establish_session` alone (session
present, no client), where `list_user_policies` with a successful upstream
outcome performs the IAM call. -/
theorem C4_witness :
    ((S3Connection_init "AK" "SK" "r").s3_instance = none ∧
     (session_connect (S3Connection_init "AK" "SK" "r")).st.s3_instance = none ∧
     (session_connect (S3Connection_init "AK" "SK" "r")).st.session = some 0 ∧
     c4Scope .get_instance = true) ∧
    ((∃ msg, (runOp .get_instance ⟨[]⟩ (S3Connection_init "AK" "SK" "r")).2.2.1
        = .error (.assertionError msg)) ∧
     netCalls (runOp .get_instance ⟨[]⟩ (S3Connection_init "AK" "SK" "r")).2.2.2
       = []) ∧
    (netCalls (list_user_policies
        (session_connect (S3Connection_init "AK" "SK" "r")).st
        "bob" (.ok (.jobj []))).evs = [.iamListUserPolicies "bob"] ∧
     (list_user_policies (session_connect (S3Connection_init "AK" "SK" "r")).st
        "bob" (.ok (.jobj []))).res
       = (Except.ok (JVal.jobj [])).mapError Err.clientError ∧
     app_list_user_policies (session_connect (S3Connection_init "AK" "SK" "r")).st
        "bob" (.ok (.jobj []))
       = list_user_policies (session_connect (S3Connection_init "AK" "SK" "r")).st
          "bob" (.ok (.jobj []))) :=
  ⟨⟨rfl, rfl, rfl, by decide⟩,
   (C4_unconnected_precondition .get_instance ⟨[]⟩ (S3Connection_init "AK" "SK" "r")
      rfl (by decide)).1,
   (C4_unconnected_precondition .get_instance ⟨[]⟩
      (session_connect (S3Connection_init "AK" "SK" "r")).st rfl (by decide)).2.2.2
     0 rfl "bob" (.ok (.jobj []))⟩

/-! ### Step lemmas for the lazy-singleton claim -/

theorem countNewSession_append (a b : List Ev) :
    countNewSession (a ++ b) = countNewSession a + countNewSession b := by
  simp [countNewSession, List.filter_append]

theorem countNewClient_append (a b : List Ev) :
    countNewClient (a ++ b) = countNewClient a + countNewClient b := by
  simp [countNewClient, List.filter_append]

/-- The per-step contract on the session and client handles: an
already-constructed handle is returned unchanged with no construction event,
and from an absent handle the step records exactly one construction event
exactly when it leaves a handle behind. -/
def HandleSpec (st st' : FacadeState) (evs : List Ev) : Prop :=
  (∀ s, st.session = some s → st'.session = some s ∧ countNewSession evs = 0) ∧
  (st.session = none →
    countNewSession evs = (if st'.session.isSome then 1 else 0)) ∧
  (∀ c, st.s3_instance = some c →
    st'.s3_instance = some c ∧ countNewClient evs = 0) ∧
  (st.s3_instance = none →
    countNewClient evs = (if st'.s3_instance.isSome then 1 else 0))

theorem handleSpec_same {st st' : FacadeState} {evs : List Ev}
    (h1 : st'.session = st.session) (h2 : st'.s3_instance = st.s3_instance)
    (hns : countNewSession evs = 0) (hnc : countNewClient evs = 0) :
    HandleSpec st st' evs := by
  refine ⟨fun s h => ⟨by rw [h1, h], hns⟩, fun h => ?_,
    fun c h => ⟨by rw [h2, h], hnc⟩, fun h => ?_⟩
  · rw [hns, h1, h]
    simp
  · rw [hnc, h2, h]
    simp

theorem handleSpec_inert {st st' : FacadeState} {evs : List Ev}
    (hst : st' = st) (hns : countNewSession evs = 0)
    (hnc : countNewClient evs = 0) : HandleSpec st st' evs :=
  handleSpec_same (by rw [hst]) (by rw [hst]) hns hnc

theorem handleSpec_of_eq {st stA stB : FacadeState} {evsA evsB : List Ev}
    (h : HandleSpec st stA evsA) (hst : stB = stA) (hevs : evsB = evsA) :
    HandleSpec st stB evsB := by
  rw [hst, hevs]
  exact h

/-- `session_connect` satisfies the handle contract. -/
theorem session_connect_handles (st : FacadeState) :
    HandleSpec st (session_connect st).st (session_connect st).evs := by
  unfold HandleSpec
  cases hs : st.session <;>
    refine ⟨fun s h => ?_, fun h => ?_, fun c h => ?_, fun h => ?_⟩ <;>
      simp_all [session_connect, countNewSession, countNewClient]

/-- `connect` satisfies the handle contract. -/
theorem connect_handles (st : FacadeState) (bn : Option String) :
    HandleSpec st (connect st bn).st (connect st bn).evs := by
  have hcases : bn = none ∨ bn = some "" ∨ (∃ b, bn = some b ∧ b ≠ "") := by
    cases bn with
    | none => exact Or.inl rfl
    | some b =>
      by_cases hb : b = ""
      · exact Or.inr (Or.inl (by rw [hb]))
      · exact Or.inr (Or.inr ⟨b, rfl, hb⟩)
  rcases hcases with rfl | rfl | ⟨b, rfl, hb⟩ <;>
    cases hs : st.session <;> cases hc : st.s3_instance <;>
      (unfold HandleSpec;
       refine ⟨fun s h => ?_, fun h => ?_, fun c h => ?_, fun h => ?_⟩) <;>
        simp_all [connect, session_connect, countNewSession, countNewClient]
theorem handleSpec_prepend {st st' : FacadeState} {evs : List Ev} (pre : List Ev)
    (h : HandleSpec st st' evs) (hps : countNewSession pre = 0)
    (hpc : countNewClient pre = 0) : HandleSpec st st' (pre ++ evs) := by
  obtain ⟨a, b, c, d⟩ := h
  refine ⟨fun s hh => ⟨(a s hh).1, ?_⟩, fun hh => ?_,
    fun cc hh => ⟨(c cc hh).1, ?_⟩, fun hh => ?_⟩
  · rw [countNewSession_append, hps, (a s hh).2]
  · rw [countNewSession_append, hps, b hh]
    simp
  · rw [countNewClient_append, hpc, (c cc hh).2]
  · rw [countNewClient_append, hpc, d hh]
    simp

theorem handleSpec_comp {st1 st2 st3 : FacadeState} {e1 e2 : List Ev}
    (h1 : HandleSpec st1 st2 e1) (h2 : HandleSpec st2 st3 e2) :
    HandleSpec st1 st3 (e1 ++ e2) := by
  obtain ⟨a1, b1, c1, d1⟩ := h1
  obtain ⟨a2, b2, c2, d2⟩ := h2
  refine ⟨?_, ?_, ?_, ?_⟩
  · intro s h
    obtain ⟨h2s, h10⟩ := a1 s h
    obtain ⟨h3s, h20⟩ := a2 s h2s
    exact ⟨h3s, by rw [countNewSession_append, h10, h20]⟩
  · intro h
    rw [countNewSession_append, b1 h]
    cases hm : st2.session with
    | some s =>
        obtain ⟨h3s, h20⟩ := a2 s hm
        rw [h20, h3s]
        simp
    | none =>
        rw [b2 hm]
        simp
  · intro cc h
    obtain ⟨h2s, h10⟩ := c1 cc h
    obtain ⟨h3s, h20⟩ := c2 cc h2s
    exact ⟨h3s, by rw [countNewClient_append, h10, h20]⟩
  · intro h
    rw [countNewClient_append, d1 h]
    cases hm : st2.s3_instance with
    | some cc =>
        obtain ⟨h3s, h20⟩ := c2 cc hm
        rw [h20, h3s]
        simp
    | none =>
        rw [d2 hm]
        simp

theorem create_s3bucket_handles (w : World) (st : FacadeState) (bn : String) :
    HandleSpec st (create_s3bucket w st bn).2.st (create_s3bucket w st bn).2.evs := by
  cases hs3 : st.s3_instance with
  | none =>
    refine handleSpec_of_eq
      (handleSpec_inert rfl rfl rfl : HandleSpec st st []) ?_ ?_ <;>
      simp [create_s3bucket, hs3]
  | some c =>
    cases hh : head_bucket w bn with
    | ok u =>
        refine handleSpec_of_eq (handleSpec_prepend
          [Ev.net (Net.headBucket bn),
           Ev.log ("Bucket '" ++ bn ++ "' already exists.") "error"]
          (connect_handles st (some bn))
          (by simp [countNewSession]) (by simp [countNewClient])) ?_ ?_ <;>
          simp [create_s3bucket, hs3, hh]
    | error code =>
        by_cases h404 : code = "404"
        · refine handleSpec_of_eq (handleSpec_prepend
            [Ev.net (Net.headBucket bn),
             Ev.net (Net.createBucket bn
               (if st.region_name = "us-east-1" then none else some st.region_name)),
             Ev.log ("Bucket '" ++ bn ++ "' created successfully.") "success"]
            (connect_handles st (some bn))
            (by simp [countNewSession]) (by simp [countNewClient])) ?_ ?_ <;>
            simp [create_s3bucket, hs3, hh, h404]
        · refine handleSpec_of_eq
            (handleSpec_inert rfl (by simp [countNewSession]) (by simp [countNewClient]) :
              HandleSpec st st [Ev.net (Net.headBucket bn),
                Ev.log ("An error occurred: " ++ code) "error"]) ?_ ?_ <;>
            simp [create_s3bucket, hs3, hh, h404]

theorem runOp_handles (op : Op) (w : World) (st : FacadeState) :
    HandleSpec st (runOp op w st).2.1 (runOp op w st).2.2.2 := by
  cases op with
  | session_connect => exact session_connect_handles st
  | connect bn => exact connect_handles st bn
  | create_s3bucket bn => exact create_s3bucket_handles w st bn
  | get_instance =>
      refine handleSpec_same ?_ ?_ ?_ ?_ <;>
        (dsimp only [runOp]; unfold get_instance) <;> (repeat' split) <;>
          simp [countNewSession, countNewClient]
  | set_bucket_cors rules outcome =>
      refine handleSpec_same ?_ ?_ ?_ ?_ <;>
        (dsimp only [runOp]; unfold set_bucket_cors) <;> (repeat' split) <;>
          simp [countNewSession, countNewClient]
  | get_bucket_cors outcome =>
      refine handleSpec_same ?_ ?_ ?_ ?_ <;>
        (dsimp only [runOp]; unfold get_bucket_cors) <;> (repeat' split) <;>
          simp [countNewSession, countNewClient]
  | delete_bucket_cors outcome =>
      refine handleSpec_same ?_ ?_ ?_ ?_ <;>
        (dsimp only [runOp]; unfold delete_bucket_cors) <;> (repeat' split) <;>
          simp [countNewSession, countNewClient]
  | set_bucket_policy bp outcome =>
      refine handleSpec_same ?_ ?_ ?_ ?_ <;>
        (dsimp only [runOp]; unfold set_bucket_policy) <;> (repeat' split) <;>
          simp [countNewSession, countNewClient]
  | delete_bucket_policy outcome =>
      refine handleSpec_same ?_ ?_ ?_ ?_ <;>
        (dsimp only [runOp]; unfold delete_bucket_policy) <;> (repeat' split) <;>
          simp [countNewSession, countNewClient]
  | get_bucket_policy outcome =>
      refine handleSpec_same ?_ ?_ ?_ ?_ <;>
        (dsimp only [runOp]; unfold get_bucket_policy) <;> (repeat' split) <;>
          simp [countNewSession, countNewClient]
  | list_user_policies u outcome =>
      refine handleSpec_same ?_ ?_ ?_ ?_ <;>
        (dsimp only [runOp]; unfold list_user_policies) <;> (repeat' split) <;>
          simp [countNewSession, countNewClient]
  | public_access b outcome =>
      refine handleSpec_same ?_ ?_ ?_ ?_ <;>
        (dsimp only [runOp]; unfold public_access) <;> (repeat' split) <;>
          simp [countNewSession, countNewClient]
  | get_sts_token ak sk dur outcome =>
      refine handleSpec_same rfl rfl ?_ ?_ <;>
        (dsimp only [runOp]; unfold get_sts_token) <;> (repeat' split) <;>
          simp [countNewSession, countNewClient]
  | presigned_create_url objn ps fs cs exp =>
      refine handleSpec_same ?_ ?_ ?_ ?_ <;>
        (dsimp only [runOp]; unfold presigned_create_url) <;> (repeat' split) <;>
          simp [countNewSession, countNewClient]
  | presigned_delete_url objn exp =>
      refine handleSpec_same ?_ ?_ ?_ ?_ <;>
        (dsimp only [runOp]; unfold presigned_delete_url) <;> (repeat' split) <;>
          simp [countNewSession, countNewClient]
  | presigned_get_url objn exp =>
      refine handleSpec_same ?_ ?_ ?_ ?_ <;>
        (dsimp only [runOp]; unfold presigned_get_url) <;> (repeat' split) <;>
          simp [countNewSession, countNewClient]
  | policy_decode sEnc =>
      refine handleSpec_same ?_ ?_ ?_ ?_ <;>
        (dsimp only [runOp]; unfold policy_decode) <;> (repeat' split) <;>
          simp [countNewSession, countNewClient]
  | upload_object f k outcome =>
      refine handleSpec_same ?_ ?_ ?_ ?_ <;>
        (dsimp only [runOp]; unfold upload_object) <;> (repeat' split) <;>
          simp [countNewSession, countNewClient]
  | get_object k outcome =>
      refine handleSpec_same ?_ ?_ ?_ ?_ <;>
        (dsimp only [runOp]; unfold get_object) <;> (repeat' split) <;>
          simp [countNewSession, countNewClient]
  | head_object k outcome =>
      refine handleSpec_same ?_ ?_ ?_ ?_ <;>
        (dsimp only [runOp]; unfold head_object) <;> (repeat' split) <;>
          simp [countNewSession, countNewClient]
  | delete_object k outcome =>
      refine handleSpec_same ?_ ?_ ?_ ?_ <;>
        (dsimp only [runOp]; unfold delete_object) <;> (repeat' split) <;>
          simp [countNewSession, countNewClient]
  | get_objects resp oo ok2 =>
      refine handleSpec_same ?_ ?_ ?_ ?_ <;>
        (dsimp only [runOp]; unfold get_objects) <;> (repeat' split) <;>
          simp [countNewSession, countNewClient]

theorem runOps_handles (ops : List Op) (w : World) (st : FacadeState) :
    HandleSpec st (runOps ops w st).2.1 (runOps ops w st).2.2 := by
  induction ops generalizing w st with
  | nil => exact handleSpec_inert rfl rfl rfl
  | cons op rest ih =>
      exact handleSpec_comp (runOp_handles op w st)
        (ih (runOp op w st).1 (runOp op w st).2.1)

/-- C1: over every sequence of facade calls, the boto3 session and client
are each constructed at most once; once present they are never replaced, and
the memoizing entry points return exactly the remembered handle. -/
theorem C1_lazy_singleton (ops : List Op) (w : World) (st : FacadeState) :
    ((∀ s, st.session = some s →
        (runOps ops w st).2.1.session = some s ∧
        countNewSession (runOps ops w st).2.2 = 0) ∧
     (∀ c, st.s3_instance = some c →
        (runOps ops w st).2.1.s3_instance = some c ∧
        countNewClient (runOps ops w st).2.2 = 0)) ∧
    countNewSession (runOps ops w st).2.2 ≤ 1 ∧
    countNewClient (runOps ops w st).2.2 ≤ 1 ∧
    (∀ s, st.session = some s → session_connect st = ⟨st, .ok s, []⟩) ∧
    (∀ c bn, st.s3_instance = some c →
        (connect st bn).res = .ok c ∧ countNewClient (connect st bn).evs = 0) := by
  obtain ⟨a, b, c, d⟩ := runOps_handles ops w st
  refine ⟨⟨a, c⟩, ?_, ?_, ?_, ?_⟩
  · cases hs : st.session with
    | some s => rw [(a s hs).2]; exact Nat.zero_le 1
    | none => rw [b hs]; split <;> simp
  · cases hc : st.s3_instance with
    | some cc => rw [(c cc hc).2]; exact Nat.zero_le 1
    | none => rw [d hc]; split <;> simp
  · intro s hs
    unfold session_connect
    rw [hs]
  · intro cc bn hc
    obtain ⟨a2, b2, c2, d2⟩ := connect_handles st bn
    refine ⟨?_, (c2 cc hc).2⟩
    cases hs : st.session <;>
      simp [connect, session_connect, hs, hc]

/-- Witness for C1 at a concrete connected state and call sequence. -/
theorem C1_witness :
    exConnected.session = some 0 ∧ exConnected.s3_instance = some 1 ∧
    ((runOps [Op.connect (some "b"), Op.session_connect, Op.get_instance]
        ⟨[]⟩ exConnected).2.1.session = some 0 ∧
     countNewSession (runOps [Op.connect (some "b"), Op.session_connect,
        Op.get_instance] ⟨[]⟩ exConnected).2.2 = 0) ∧
    ((runOps [Op.connect (some "b"), Op.session_connect, Op.get_instance]
        ⟨[]⟩ exConnected).2.1.s3_instance = some 1 ∧
     countNewClient (runOps [Op.connect (some "b"), Op.session_connect,
        Op.get_instance] ⟨[]⟩ exConnected).2.2 = 0) ∧
    (connect exConnected (some "b")).res = .ok 1 :=
  ⟨rfl, rfl,
   (C1_lazy_singleton [Op.connect (some "b"), Op.session_connect,
      Op.get_instance] ⟨[]⟩ exConnected).1.1 0 rfl,
   (C1_lazy_singleton [Op.connect (some "b"), Op.session_connect,
      Op.get_instance] ⟨[]⟩ exConnected).1.2 1 rfl,
   ((C1_lazy_singleton [Op.connect (some "b"), Op.session_connect,
      Op.get_instance] ⟨[]⟩ exConnected).2.2.2.2 1 (some "b") rfl).1⟩

end Cloudspark
